import Mathlib

/-!
Verification of the batch content pipeline of the CK-FOps content generation tool.

The development embeds, as executable Lean definitions:

* the data model of `src/types.ts` (`ScrapedContent`, `BulkJobItem`);
* the Gemini service (`getGenAIClient`, `scrapeContentWithGenAI`, `transformContent`),
  with each `ai.models.generateContent` call modelled by an `ApiResult` oracle value
  (either the resolved `response.text` or the message of a rejected promise);
* the scraper service (`scrapeUrl` with its title-inference loop);
* the bulk processor of `src/App.tsx` (`processJob`, `startProcessing`,
  `completedJobs`, `handleUrlFileUpload`), where each `setJobs` call becomes an
  explicit store update and the sequential `for` loop becomes a fold over the
  captured job list.

Theorems about progress accounting, the per-job state machine, failure recording
and job creation follow the definitions.
-/

namespace ContentTool

/-- Stage status of a bulk job: 'idle' | 'pending' | 'success' | 'failed'. -/
inductive Status where
  | idle
  | pending
  | success
  | failed
deriving DecidableEq

/-- Status of a scrape result: 'success' | 'failed' | 'partial'
(the last is named `partialResult` here). -/
inductive ScrapeResultStatus where
  | success
  | failed
  | partialResult
deriving DecidableEq

/-- `ScrapedContent` from src/types.ts.  The `metadata` record (typed
`Record<string, any>` in the source) is modelled as an optional association list. -/
structure ScrapedContent where
  url : String
  title : String
  description : String
  content : String
  h1 : List String
  links : Nat
  status : ScrapeResultStatus
  error : Option String := none
  metadata : Option (List (String × String)) := none
deriving DecidableEq

/-- `BulkJobItem` from src/types.ts. -/
structure BulkJobItem where
  id : String
  url : String
  scrapeStatus : Status
  scrapedData : Option ScrapedContent := none
  transformStatus : Status
  transformedData : Option String := none
  error : Option String := none
deriving DecidableEq

/-- Outcome of one `ai.models.generateContent` call: the promise either resolves,
yielding `response.text` (the empty string models an absent/falsy text), or rejects
with an error whose `.message` is the given string. -/
inductive ApiResult where
  | ok (text : String)
  | thrown (msg : String)
deriving DecidableEq

/-- External-world configuration for the Gemini-backed services: whether an API key
is configured (`localStorage` key or `process.env.API_KEY`), and the outcome of the
generate-content call used for scraping (indexed by URL) and for transformation
(indexed by the source content passed to the prompt). -/
structure Oracle where
  apiKeyPresent : Bool
  scrapeApi : String → ApiResult
  transformApi : String → ApiResult

/-! ## JavaScript string primitives

The JavaScript string operations used by the source (`split`, `trim`,
`toLowerCase`, `startsWith`, `endsWith`, `slice`, `includes`) are modelled
structurally over character lists so that every definition evaluates by kernel
reduction.  Scanning loops take an explicit fuel argument, instantiated with the
input length plus one, which always suffices since every step consumes at least
one character. -/

/-- Characters matched by the JavaScript regex class `\s` (ASCII part; the rare
Unicode space characters are not modelled). -/
def isJsSpace (ch : Char) : Bool :=
  ch = ' ' || ch = '\t' || ch = '\n' || ch = '\r' || ch = '\x0b' || ch = '\x0c'

/-- JS `s.split(sep)` scanner for a non-empty separator: `acc` holds the current
field reversed; a separator occurrence closes the field. -/
def splitOnFuel (sep : List Char) : Nat → List Char → List Char → List (List Char)
  | 0, l, acc => [acc.reverse ++ l]
  | fuel + 1, l, acc =>
    match l with
    | [] => [acc.reverse]
    | c :: rest =>
      if sep.isPrefixOf (c :: rest) ∧ ¬ sep = [] then
        acc.reverse :: splitOnFuel sep fuel ((c :: rest).drop sep.length) []
      else splitOnFuel sep fuel rest (c :: acc)

/-- JS `s.split(sep)` on character lists (non-empty separator). -/
def splitOnList (sep l : List Char) : List (List Char) :=
  splitOnFuel sep (l.length + 1) l []

/-- JS `s.split(sep)` (non-empty separator). -/
def jsSplitOn (s sep : String) : List String :=
  (splitOnList sep.data s.data).map String.mk

/-- JS `s.trim()` (both ends, `\s`-like character class). -/
def trimList (cs : List Char) : List Char :=
  ((cs.dropWhile isJsSpace).reverse.dropWhile isJsSpace).reverse

/-- JS `s.trim()` on strings. -/
def jsTrim (s : String) : String := String.mk (trimList s.data)

/-- JS `s.toLowerCase()` (ASCII case folding). -/
def jsToLower (s : String) : String := String.mk (s.data.map Char.toLower)

/-- JS `s.startsWith(pre)`. -/
def jsStartsWith (s pre : String) : Bool := pre.data.isPrefixOf s.data

/-- JS `s.endsWith(suf)`. -/
def jsEndsWith (s suf : String) : Bool := suf.data.reverse.isPrefixOf s.data.reverse

/-- JS `s.slice(n)`. -/
def jsDrop (s : String) (n : Nat) : String := String.mk (s.data.drop n)

/-- JS `s.length` (code-point count; the sources only meet ASCII). -/
def jsLength (s : String) : Nat := s.data.length

/-- JS `s.includes(pat)` (substring test, non-empty `pat`): `split` yields more
than one field exactly when the pattern occurs. -/
def containsSubstr (s pat : String) : Bool :=
  (jsSplitOn s pat).length != 1

/-! ## Gemini service (src/unnamed/part_000) -/

/-- Message of the error thrown by `getGenAIClient` when no key is configured. -/
def keyMissingMsg : String := "Gemini API Key is missing. Please set it in the Settings."

/-- `getGenAIClient`: throws when neither the user key nor `process.env.API_KEY` is set. -/
def getGenAIClient (apiKeyPresent : Bool) : Except String Unit :=
  if apiKeyPresent then .ok () else .error keyMissingMsg

/-- Fallback text used by `scrapeContentWithGenAI` when `response.text` is falsy. -/
def scrapeFallbackMsg : String :=
  "Unable to extract content from this URL. It may be blocked or not indexed."

/-- The catch branch of `scrapeContentWithGenAI`: a caught error becomes an ordinary
content string (with a special text when the message mentions 'API key'). -/
def scrapeCatchMsg (m : String) : String :=
  if containsSubstr m "API key" then
    "Error: Invalid or missing API Key. Please check your settings."
  else
    "Error accessing page: " ++ m ++ ". Please check the URL."

/-- `scrapeContentWithGenAI`: the try body may throw (`.error`) from `getGenAIClient`
or from the API call; the catch converts every throw into an ordinary string, so the
function itself always resolves (`.ok`). -/
def scrapeContentWithGenAI (apiKeyPresent : Bool) (api : ApiResult) : Except String String :=
  let body : Except String String :=
    match getGenAIClient apiKeyPresent with
    | .error m => .error m
    | .ok () =>
      match api with
      | .ok t => .ok (if t = "" then scrapeFallbackMsg else t)
      | .thrown m => .error m
  match body with
  | .ok t => .ok t
  | .error m => .ok (scrapeCatchMsg m)

/-- Post-processing step `text.replace(/^```[a-z]*\n?/i, '')`: strip a leading
markdown fence (backticks, a run of ASCII letters, an optional newline). -/
def stripOpenFence (s : String) : String :=
  if jsStartsWith s "```" then
    let r := (s.data.drop 3).dropWhile Char.isAlpha
    match r with
    | '\n' :: r2 => String.mk r2
    | _ => String.mk r
  else s

/-- Post-processing step `text.replace(/```$/, '')`: strip a trailing fence. -/
def stripCloseFence (s : String) : String :=
  if jsEndsWith s "```" then String.mk (s.data.take (s.data.length - 3)) else s

/-- `text.replace(/cc/g, '')` for a doubled character `c` (used for `**` and `__`):
remove non-overlapping adjacent pairs, scanning left to right. -/
def stripDoubled (c : Char) : List Char → List Char
  | [] => []
  | [a] => [a]
  | a :: b :: rest =>
    if a = c ∧ b = c then stripDoubled c rest
    else a :: stripDoubled c (b :: rest)

/-- `text.replace(/^#+\s/gm, '')`: at each line start remove a run of `#` followed by
one whitespace character (which may itself be the newline).  `atStart` records
whether the scanner sits at a line start; `'\n'` is the modelled line terminator. -/
def stripHeaderMarksFuel : Nat → Bool → List Char → List Char
  | 0, _, l => l
  | fuel + 1, atStart, l =>
    match l with
    | [] => []
    | ch :: rest =>
      if atStart ∧ ch = '#' then
        let hashes := (ch :: rest).takeWhile (fun d => d = '#')
        match (ch :: rest).drop hashes.length with
        | d :: rest2 =>
          if isJsSpace d then stripHeaderMarksFuel fuel (d = '\n') rest2
          else ch :: stripHeaderMarksFuel fuel false rest
        | [] => ch :: stripHeaderMarksFuel fuel false rest
      else
        ch :: stripHeaderMarksFuel fuel (ch = '\n') rest

/-- The header-mark stripper, starting at a line start with sufficient fuel. -/
def stripHeaderMarks (cs : List Char) : List Char :=
  stripHeaderMarksFuel (cs.length + 1) true cs

/-- `text.replace(/^\* /gm, '- ')`: a `* ` bullet at a line start becomes `- `. -/
def starBulletsToDash (atStart : Bool) : List Char → List Char
  | [] => []
  | [ch] => [ch]
  | ch :: next :: rest =>
    if atStart ∧ ch = '*' ∧ next = ' ' then
      '-' :: ' ' :: starBulletsToDash false rest
    else
      ch :: starBulletsToDash (ch = '\n') (next :: rest)

/-- `text.replace(/  +/g, ' ')` scanner: collapse each run of spaces to one space. -/
def collapseSpacesFuel : Nat → List Char → List Char
  | 0, l => l
  | _ + 1, [] => []
  | fuel + 1, ch :: rest =>
    if ch = ' ' then ' ' :: collapseSpacesFuel fuel (rest.dropWhile (fun d => d = ' '))
    else ch :: collapseSpacesFuel fuel rest

/-- `text.replace(/  +/g, ' ')` with sufficient fuel. -/
def collapseSpaces (cs : List Char) : List Char :=
  collapseSpacesFuel (cs.length + 1) cs

/-- The strict character-cleanup block of `transformContent` (runs only when markdown
was not requested and no sample file was supplied): remove `**`, `__`, line-leading
`#+` headers, turn `* ` bullets into `- `, collapse double spaces. -/
def stripMarkdownChars (s : String) : String :=
  let t1 := String.mk (stripDoubled '*' s.data)
  let t2 := String.mk (stripDoubled '_' t1.data)
  let t3 := String.mk (stripHeaderMarks t2.data)
  let t4 := String.mk (starBulletsToDash true t3.data)
  String.mk (collapseSpaces t4.data)

/-- JavaScript `!s` for an optional string argument: true when the argument is
absent (`undefined`) or the empty string — both falsy. -/
def jsFalsyStr (s : Option String) : Bool :=
  match s with
  | none => true
  | some t => t == ""

/-- `transformContent` from the Gemini service.  `content` only feeds the prompt of
the opaque API call (whose outcome is the `api` argument), `userPrompt` decides
`isMarkdownRequested`, `sampleFileContent` decides whether the character cleanup
runs — the source's guard `!sampleFileContent` is JS falsiness, so a supplied but
empty sample string also enables the cleanup.  A `.error` result models the
re-thrown error of the catch block. -/
def transformContent (apiKeyPresent : Bool) (api : ApiResult) (content userPrompt : String)
    (sampleFileContent : Option String) : Except String String :=
  let _ := content
  let body : Except String String :=
    match getGenAIClient apiKeyPresent with
    | .error m => .error m
    | .ok () =>
      let isMarkdownRequested := containsSubstr (jsToLower userPrompt) "markdown"
      match api with
      | .thrown m => .error m
      | .ok raw =>
        let text := stripCloseFence (stripOpenFence raw)
        let text :=
          if !isMarkdownRequested && jsFalsyStr sampleFileContent then
            stripMarkdownChars text
          else text
        let cleanedText := jsTrim text
        .ok (if cleanedText = "" then "No content generated." else cleanedText)
  match body with
  | .ok t => .ok t
  | .error m => .error (if m = "" then "Failed to transform content" else m)

/-! ## Scraper service (src/unnamed/part_002) -/

/-- Whether a line starts (case-insensitively) with `Title:` or `Product Name:`. -/
def isTitleLabel (line : String) : Bool :=
  jsStartsWith (jsToLower line) "title:" || jsStartsWith (jsToLower line) "product name:"

/-- `line.replace(/^(Title:|Product Name:)/i, '').trim()`. -/
def stripTitleLabel (line : String) : String :=
  if jsStartsWith (jsToLower line) "title:" then jsTrim (jsDrop line 6)
  else if jsStartsWith (jsToLower line) "product name:" then jsTrim (jsDrop line 13)
  else jsTrim line

/-- Scan of loop iterations `i = 1 .. 4` for a label line (the loop breaks there). -/
def findTitleLabel : Nat → List String → Option String
  | _, [] => none
  | 0, _ => none
  | k + 1, l :: ls => if isTitleLabel l then some (stripTitleLabel l) else findTitleLabel k ls

/-- The title-inference loop of `scrapeUrl`: among the first five non-blank lines,
prefer a `Title:` / `Product Name:` label line; otherwise the first line when it is
shorter than 100 characters; otherwise the generic placeholder. -/
def inferTitle (extractedText : String) : String :=
  let lines := (jsSplitOn extractedText "\n").filter (fun l => 0 < (trimList l.data).length)
  match lines with
  | [] => "Scraped Page Content"
  | l0 :: rest =>
    if isTitleLabel l0 then stripTitleLabel l0
    else
      let acc := if jsLength l0 < 100 then l0 else "Scraped Page Content"
      match findTitleLabel 4 rest with
      | some t => t
      | none => acc

/-- `scrapeUrl`: delegate to `scrapeContentWithGenAI`, infer a title, and report
success; the catch branch (reached only if the delegate threw) reports failure. -/
def scrapeUrl (apiKeyPresent : Bool) (api : ApiResult) (url : String) : ScrapedContent :=
  match scrapeContentWithGenAI apiKeyPresent api with
  | .ok extractedText =>
    let inferredTitle := inferTitle extractedText
    { url := url
      title := inferredTitle
      description := "Content extracted via Gemini AI Search Grounding"
      content := extractedText
      h1 := [inferredTitle]
      links := 0
      status := .success
      error := none
      metadata := some [("source", "Gemini Search Grounding")] }
  | .error m =>
    { url := url
      title := "Extraction Failed"
      description := "Could not retrieve content."
      content := ""
      h1 := []
      links := 0
      status := .failed
      error := some (if m = "" then "Failed to scrape URL via AI" else m)
      metadata := none }

/-! ## Bulk processor (src/App.tsx, BulkUrlProcessor) -/

/-- The two service functions imported by the bulk processor. -/
structure Services where
  scrape : String → ScrapedContent
  transform : String → String → Option String → Except String String

/-- The concrete services used by the app: `scrapeUrl` and `transformContent`
backed by the Gemini oracle. -/
def geminiServices (env : Oracle) : Services where
  scrape := fun url => scrapeUrl env.apiKeyPresent (env.scrapeApi url) url
  transform := fun content p smp =>
    transformContent env.apiKeyPresent (env.transformApi content) content p smp

/-- `setJobs(prev => prev.map(j => j.id === id ? { ...j, patch } : j))`. -/
def updateJob (st : List BulkJobItem) (i : String) (u : BulkJobItem → BulkJobItem) :
    List BulkJobItem :=
  st.map (fun j => if j.id = i then u j else j)

/-- Truthiness of `prompt || sampleFile`: transformation is configured. -/
def specPresent (prompt : String) (sample : Option String) : Bool :=
  prompt != "" || sample.isSome

/-- The sequence of `setJobs` updates performed by `processJob` for one captured job:
mark scraping pending; on scrape failure record it and stop; otherwise record the
scraped data and, when a prompt or sample file is configured, run the transformer,
whose thrown error is caught by marking BOTH stages failed. -/
def processJobUpdates (svc : Services) (prompt : String) (sample : Option String)
    (job : BulkJobItem) : List (BulkJobItem → BulkJobItem) :=
  let pendingU : BulkJobItem → BulkJobItem := fun j => { j with scrapeStatus := .pending }
  let sd := svc.scrape job.url
  if sd.status = .failed then
    [pendingU, fun j => { j with scrapeStatus := .failed, error := sd.error }]
  else
    let okU : BulkJobItem → BulkJobItem :=
      fun j => { j with scrapeStatus := .success, scrapedData := some sd }
    if specPresent prompt sample then
      let tPendU : BulkJobItem → BulkJobItem := fun j => { j with transformStatus := .pending }
      match svc.transform sd.content prompt sample with
      | .ok t =>
        [pendingU, okU, tPendU,
          fun j => { j with transformStatus := .success, transformedData := some t }]
      | .error m =>
        [pendingU, okU, tPendU,
          fun j =>
            { j with
              scrapeStatus := .failed
              transformStatus := .failed
              error := some m }]
    else [pendingU, okU]

/-- `processJob`: apply the update sequence to the store, keyed by the job's id. -/
def processJob (svc : Services) (prompt : String) (sample : Option String)
    (st : List BulkJobItem) (job : BulkJobItem) : List BulkJobItem :=
  (processJobUpdates svc prompt sample job).foldl (fun cur u => updateJob cur job.id u) st

/-- Net effect of `processJob` on one store entry carrying the processed job's id. -/
def runJob (svc : Services) (prompt : String) (sample : Option String)
    (job e : BulkJobItem) : BulkJobItem :=
  (processJobUpdates svc prompt sample job).foldl (fun a u => u a) e

/-- External calls made by `processJob`: (scrape calls, transform calls). -/
def processJobCalls (svc : Services) (prompt : String) (sample : Option String)
    (job : BulkJobItem) : Nat × Nat :=
  (1, if (svc.scrape job.url).status ≠ .failed ∧ specPresent prompt sample = true then 1 else 0)

/-- `startProcessing`: refuse to run on an empty store or when neither a prompt nor a
sample file is configured; otherwise process the captured jobs sequentially, skipping
those whose captured scrape status is not 'idle'.  Returns the final store together
with the number of scrape and transform calls performed. -/
def startProcessing (svc : Services) (prompt : String) (sample : Option String)
    (jobs0 : List BulkJobItem) : List BulkJobItem × Nat × Nat :=
  if jobs0.length = 0 then (jobs0, 0, 0)
  else if specPresent prompt sample = false then (jobs0, 0, 0)
  else
    jobs0.foldl
      (fun acc job =>
        if job.scrapeStatus = .idle then
          let calls := processJobCalls svc prompt sample job
          (processJob svc prompt sample acc.1 job, acc.2.1 + calls.1, acc.2.2 + calls.2)
        else acc)
      (jobs0, 0, 0)

/-- Store snapshots seen while `processJob` runs on one job (`scanl`, so the list
starts with the incoming store and ends with `processJob`'s result). -/
def jobTrace (svc : Services) (prompt : String) (sample : Option String)
    (st : List BulkJobItem) (job : BulkJobItem) : List (List BulkJobItem) :=
  (processJobUpdates svc prompt sample job).scanl (fun cur u => updateJob cur job.id u) st

/-- Store snapshots of a whole run: fold over the captured job list, concatenating
each processed job's snapshots. -/
def runTraceAux (svc : Services) (prompt : String) (sample : Option String) :
    List BulkJobItem → List BulkJobItem → List (List BulkJobItem)
  | [], st => [st]
  | job :: rest, st =>
    if job.scrapeStatus = .idle then
      (jobTrace svc prompt sample st job).dropLast
        ++ runTraceAux svc prompt sample rest (processJob svc prompt sample st job)
    else runTraceAux svc prompt sample rest st

/-- All store snapshots of one `startProcessing` invocation, in order.  A refused run
contributes the unchanged store only. -/
def runTrace (svc : Services) (prompt : String) (sample : Option String)
    (jobs0 : List BulkJobItem) : List (List BulkJobItem) :=
  if jobs0.length = 0 then [jobs0]
  else if specPresent prompt sample = false then [jobs0]
  else runTraceAux svc prompt sample jobs0 jobs0

/-- The completion predicate of the `completedJobs` filter: scrape failed, or scrape
succeeded and (when a prompt or sample is configured) the transform finished. -/
def isCompleted (prompt : String) (sample : Option String) (j : BulkJobItem) : Bool :=
  if j.scrapeStatus = .failed then true
  else if j.scrapeStatus = .success then
    if specPresent prompt sample then
      j.transformStatus == .success || j.transformStatus == .failed
    else true
  else false

/-- `completedJobs`: number of jobs that count as complete. -/
def completedJobs (prompt : String) (sample : Option String)
    (jobs : List BulkJobItem) : Nat :=
  (jobs.filter (fun j => isCompleted prompt sample j)).length

/-- `totalJobs = jobs.length`. -/
def totalJobs (jobs : List BulkJobItem) : Nat := jobs.length

/-- One parsed spreadsheet row, as produced by `sheet_to_json`: the `URL` and `url`
cells when present. -/
structure UrlRow where
  URL : Option String := none
  url : Option String := none

/-- `row.URL || row.url`, with `""` standing for a missing or empty (falsy) cell. -/
def rowUrl (r : UrlRow) : String :=
  match r.URL with
  | some s => if s ≠ "" then s else r.url.getD ""
  | none => r.url.getD ""

/-- Job id `job-${idx}-${Date.now()}`; `now` models `Date.now()`. -/
def mkJobId (idx now : Nat) : String :=
  "job-" ++ Nat.repr idx ++ "-" ++ Nat.repr now

/-- The row callback of `handleUrlFileUpload`: `null` for a falsy cell, otherwise a
fresh idle/idle job (the source maps rows and then filters out the `null`s, which is
a `filterMap`). -/
def rowToJob (now : Nat) (p : Nat × UrlRow) : Option BulkJobItem :=
  let u := rowUrl p.2
  if u = "" then none
  else some
    { id := mkJobId p.1 now
      url := jsTrim u
      scrapeStatus := .idle
      scrapedData := none
      transformStatus := .idle
      transformedData := none
      error := none }

/-- `handleUrlFileUpload`: one job per row whose `URL`/`url` cell is truthy, in row
order, with the id built from the row index, the trimmed url, and both stages idle. -/
def handleUrlFileUpload (rows : List UrlRow) (now : Nat) : List BulkJobItem :=
  (rows.enum).filterMap (rowToJob now)

/-- Modelled from the spec: a job is terminal given the configured transformSpec —
extraction failed; or extraction succeeded and either no transformSpec is
configured, or the transform state is Success or Failed. -/
def specTerminal (prompt : String) (sample : Option String) (j : BulkJobItem) : Bool :=
  j.scrapeStatus == .failed
    || (j.scrapeStatus == .success
        && (if specPresent prompt sample = false then true
            else j.transformStatus == .success || j.transformStatus == .failed))

/-! ## Helper lemmas about the pipeline -/

/-- Every `setJobs` patch of `processJob` leaves the job id unchanged. -/
lemma processJobUpdates_id (svc : Services) (p : String) (s : Option String)
    (job : BulkJobItem) :
    ∀ u ∈ processJobUpdates svc p s job, ∀ j : BulkJobItem, (u j).id = j.id := by
  intro u hu j
  simp only [processJobUpdates] at hu
  by_cases h1 : (svc.scrape job.url).status = .failed
  · rw [if_pos h1] at hu
    simp only [List.mem_cons, List.not_mem_nil, or_false] at hu
    rcases hu with h | h <;> subst h <;> rfl
  · rw [if_neg h1] at hu
    by_cases h2 : specPresent p s = true
    · rw [if_pos h2] at hu
      cases h3 : svc.transform (svc.scrape job.url).content p s with
      | ok t =>
        rw [h3] at hu
        simp only [List.mem_cons, List.not_mem_nil, or_false] at hu
        rcases hu with h | h | h | h <;> subst h <;> rfl
      | error m =>
        rw [h3] at hu
        simp only [List.mem_cons, List.not_mem_nil, or_false] at hu
        rcases hu with h | h | h | h <;> subst h <;> rfl
    · rw [if_neg h2] at hu
      simp only [List.mem_cons, List.not_mem_nil, or_false] at hu
      rcases hu with h | h <;> subst h <;> rfl

/-- Folding id-preserving patches over an entry leaves its id unchanged. -/
lemma foldl_apply_id (us : List (BulkJobItem → BulkJobItem))
    (hid : ∀ u ∈ us, ∀ j : BulkJobItem, (u j).id = j.id) (e : BulkJobItem) :
    (us.foldl (fun a u => u a) e).id = e.id := by
  induction us generalizing e with
  | nil => rfl
  | cons u us ih =>
    rw [List.foldl_cons]
    rw [ih (fun v hv => hid v (List.mem_cons_of_mem u hv)) (u e)]
    exact hid u (List.mem_cons_self u us) e

/-- `runJob` preserves the entry's id. -/
lemma runJob_id (svc : Services) (p : String) (s : Option String) (job e : BulkJobItem) :
    (runJob svc p s job e).id = e.id :=
  foldl_apply_id _ (processJobUpdates_id svc p s job) e

/-- A fold of keyed store updates is a pointwise map: entries carrying the key
receive the folded patch, all other entries are untouched. -/
lemma foldl_updateJob_eq_map (us : List (BulkJobItem → BulkJobItem)) (i : String)
    (hid : ∀ u ∈ us, ∀ j : BulkJobItem, (u j).id = j.id) (st : List BulkJobItem) :
    us.foldl (fun cur u => updateJob cur i u) st
      = st.map (fun j => if j.id = i then us.foldl (fun a u => u a) j else j) := by
  induction us generalizing st with
  | nil =>
    simp only [List.foldl_nil]
    have : (fun j : BulkJobItem => if j.id = i then j else j) = id := by
      funext j; split <;> rfl
    rw [this, List.map_id]
  | cons u us ih =>
    rw [List.foldl_cons, ih (fun v hv => hid v (List.mem_cons_of_mem u hv))]
    unfold updateJob
    rw [List.map_map]
    congr 1
    funext j
    by_cases hj : j.id = i
    · have hu : (u j).id = j.id := hid u (List.mem_cons_self u us) j
      simp [hj, hu]
    · simp [hj]

/-- `processJob` is a pointwise map of the store: the entry with the processed job's
id becomes `runJob` of itself, every other entry is unchanged. -/
lemma processJob_eq_map (svc : Services) (p : String) (s : Option String)
    (st : List BulkJobItem) (job : BulkJobItem) :
    processJob svc p s st job
      = st.map (fun j => if j.id = job.id then runJob svc p s job j else j) :=
  foldl_updateJob_eq_map _ _ (processJobUpdates_id svc p s job) st

/-- Closed form of `runJob` when scraping reports failure. -/
lemma runJob_scrape_failed (svc : Services) (p : String) (s : Option String)
    (job e : BulkJobItem) (h : (svc.scrape job.url).status = .failed) :
    runJob svc p s job e
      = { e with scrapeStatus := .failed, error := (svc.scrape job.url).error } := by
  unfold runJob processJobUpdates
  rw [if_pos h]
  rfl

/-- Closed form of `runJob` when scraping succeeds, a transform is configured, and
the transformer resolves. -/
lemma runJob_transform_ok (svc : Services) (p : String) (s : Option String)
    (job e : BulkJobItem) (t : String)
    (h1 : ¬ (svc.scrape job.url).status = .failed)
    (h2 : specPresent p s = true)
    (h3 : svc.transform (svc.scrape job.url).content p s = .ok t) :
    runJob svc p s job e
      = { e with
          scrapeStatus := .success
          scrapedData := some (svc.scrape job.url)
          transformStatus := .success
          transformedData := some t } := by
  unfold runJob processJobUpdates
  rw [if_neg h1, if_pos h2, h3]
  rfl

/-- Closed form of `runJob` when scraping succeeds, a transform is configured, and
the transformer throws: the catch marks both stages failed. -/
lemma runJob_transform_err (svc : Services) (p : String) (s : Option String)
    (job e : BulkJobItem) (m : String)
    (h1 : ¬ (svc.scrape job.url).status = .failed)
    (h2 : specPresent p s = true)
    (h3 : svc.transform (svc.scrape job.url).content p s = .error m) :
    runJob svc p s job e
      = { e with
          scrapeStatus := .failed
          scrapedData := some (svc.scrape job.url)
          transformStatus := .failed
          error := some m } := by
  unfold runJob processJobUpdates
  rw [if_neg h1, if_pos h2, h3]
  rfl

/-- Closed form of `runJob` when scraping succeeds and no transform is configured. -/
lemma runJob_no_spec (svc : Services) (p : String) (s : Option String)
    (job e : BulkJobItem)
    (h1 : ¬ (svc.scrape job.url).status = .failed)
    (h2 : specPresent p s = false) :
    runJob svc p s job e
      = { e with scrapeStatus := .success, scrapedData := some (svc.scrape job.url) } := by
  unfold runJob processJobUpdates
  rw [if_neg h1, if_neg (by simp [h2])]
  rfl

/-- Store-only view of the processing loop of `startProcessing`. -/
def foldStore (svc : Services) (p : String) (s : Option String)
    (todo st : List BulkJobItem) : List BulkJobItem :=
  todo.foldl (fun cur job => if job.scrapeStatus = .idle then processJob svc p s cur job else cur) st

/-- On a non-empty store with a configured transformSpec, the final store of
`startProcessing` is the loop fold, starting from the captured store. -/
lemma startProcessing_fst (svc : Services) (p : String) (s : Option String)
    (jobs0 : List BulkJobItem) (h0 : ¬ jobs0.length = 0) (hsp : specPresent p s = true) :
    (startProcessing svc p s jobs0).1 = foldStore svc p s jobs0 jobs0 := by
  unfold startProcessing foldStore
  rw [if_neg h0, if_neg (by simp [hsp])]
  have main : ∀ (todo : List BulkJobItem) (st : List BulkJobItem) (c1 c2 : Nat),
      (todo.foldl
        (fun acc job =>
          if job.scrapeStatus = .idle then
            let calls := processJobCalls svc p s job
            (processJob svc p s acc.1 job, acc.2.1 + calls.1, acc.2.2 + calls.2)
          else acc)
        (st, c1, c2)).1
      = todo.foldl
          (fun cur job => if job.scrapeStatus = .idle then processJob svc p s cur job else cur)
          st := by
    intro todo
    induction todo with
    | nil => intro st c1 c2; rfl
    | cons job rest ih =>
      intro st c1 c2
      by_cases h : job.scrapeStatus = .idle
      · simp only [List.foldl_cons, if_pos h]
        exact ih _ _ _
      · simp only [List.foldl_cons, if_neg h]
        exact ih _ _ _
  exact main jobs0 jobs0 0 0

/-- On a non-empty store with a configured transformSpec, the scrape-call counter of
`startProcessing` counts the captured jobs whose scrape status is 'idle'. -/
lemma startProcessing_scrapeCalls (svc : Services) (p : String) (s : Option String)
    (jobs0 : List BulkJobItem) (h0 : ¬ jobs0.length = 0) (hsp : specPresent p s = true) :
    (startProcessing svc p s jobs0).2.1
      = (jobs0.filter (fun j => j.scrapeStatus == Status.idle)).length := by
  unfold startProcessing
  rw [if_neg h0, if_neg (by simp [hsp])]
  have main : ∀ (todo : List BulkJobItem) (st : List BulkJobItem) (c1 c2 : Nat),
      (todo.foldl
        (fun acc job =>
          if job.scrapeStatus = .idle then
            let calls := processJobCalls svc p s job
            (processJob svc p s acc.1 job, acc.2.1 + calls.1, acc.2.2 + calls.2)
          else acc)
        (st, c1, c2)).2.1
      = c1 + (todo.filter (fun j => j.scrapeStatus == Status.idle)).length := by
    intro todo
    induction todo with
    | nil => intro st c1 c2; simp
    | cons job rest ih =>
      intro st c1 c2
      by_cases h : job.scrapeStatus = .idle
      · rw [List.foldl_cons, if_pos h,
          List.filter_cons_of_pos (by rw [h]; rfl)]
        rw [ih]
        simp only [List.length_cons, processJobCalls]
        omega
      · rw [List.foldl_cons, if_neg h,
          List.filter_cons_of_neg (by simp [h])]
        exact ih st c1 c2
  have := main jobs0 jobs0 0 0
  simpa using this

/-- A run over captured jobs none of which is 'idle' does nothing and makes no calls. -/
lemma startProcessing_all_terminal (svc : Services) (p : String) (s : Option String)
    (jobs0 : List BulkJobItem) (h : ∀ j ∈ jobs0, ¬ j.scrapeStatus = .idle) :
    startProcessing svc p s jobs0 = (jobs0, 0, 0) := by
  unfold startProcessing
  split
  · rfl
  · split
    · rfl
    · have main : ∀ (todo : List BulkJobItem) (acc : List BulkJobItem × Nat × Nat),
          (∀ j ∈ todo, ¬ j.scrapeStatus = .idle) →
          todo.foldl
            (fun acc job =>
              if job.scrapeStatus = .idle then
                let calls := processJobCalls svc p s job
                (processJob svc p s acc.1 job, acc.2.1 + calls.1, acc.2.2 + calls.2)
              else acc)
            acc = acc := by
        intro todo
        induction todo with
        | nil => intro acc _; rfl
        | cons job rest ih =>
          intro acc htodo
          rw [List.foldl_cons, if_neg (htodo job (List.mem_cons_self job rest))]
          exact ih acc (fun j hj => htodo j (List.mem_cons_of_mem job hj))
      exact main jobs0 (jobs0, 0, 0) h

/-- Final-store characterization of the processing loop: with pairwise-distinct
captured ids, each entry becomes `runJob` of itself under the captured idle job
carrying its id, and stays unchanged when there is none. -/
lemma foldStore_eq_map (svc : Services) (p : String) (s : Option String) :
    ∀ (todo st : List BulkJobItem), (todo.map BulkJobItem.id).Nodup →
    foldStore svc p s todo st
      = st.map (fun e =>
          match todo.find? (fun job => job.scrapeStatus == Status.idle && job.id == e.id) with
          | some job => runJob svc p s job e
          | none => e) := by
  intro todo
  induction todo with
  | nil =>
    intro st _
    simp [foldStore]
  | cons job rest ih =>
    intro st hN
    rw [List.map_cons, List.nodup_cons] at hN
    have hnotin : job.id ∉ rest.map BulkJobItem.id := hN.1
    have hN' : (rest.map BulkJobItem.id).Nodup := hN.2
    by_cases h : job.scrapeStatus = .idle
    · have hstep : foldStore svc p s (job :: rest) st
          = foldStore svc p s rest (processJob svc p s st job) := by
        unfold foldStore
        rw [List.foldl_cons, if_pos h]
      rw [hstep, ih _ hN', processJob_eq_map, List.map_map]
      congr 1
      funext e
      simp only [Function.comp_apply]
      by_cases he : e.id = job.id
      · rw [if_pos he]
        have hpred : (job.scrapeStatus == Status.idle && job.id == e.id) = true := by
          simp [h, he]
        rw [List.find?_cons, hpred]
        have hid : (runJob svc p s job e).id = e.id := runJob_id svc p s job e
        have hnone : rest.find? (fun jb : BulkJobItem =>
            jb.scrapeStatus == Status.idle && jb.id == (runJob svc p s job e).id) = none := by
          rw [List.find?_eq_none]
          intro jb hjb hp
          rw [Bool.and_eq_true, beq_iff_eq, beq_iff_eq] at hp
          have hjid : jb.id = job.id := by rw [hp.2, hid, he]
          exact hnotin (hjid ▸ List.mem_map_of_mem BulkJobItem.id hjb)
        rw [hnone]
      · rw [if_neg he]
        have hpred : (job.scrapeStatus == Status.idle && job.id == e.id) = false := by
          have : ¬ job.id = e.id := fun hx => he hx.symm
          simp [this]
        rw [List.find?_cons, hpred]
    · have hstep : foldStore svc p s (job :: rest) st = foldStore svc p s rest st := by
        unfold foldStore
        rw [List.foldl_cons, if_neg h]
      rw [hstep, ih _ hN']
      congr 1
      funext e
      have hpred : (job.scrapeStatus == Status.idle && job.id == e.id) = false := by
        have : ¬ (job.scrapeStatus == Status.idle) = true := by
          simpa using h
        simp [Bool.and_eq_true] at this ⊢
        intro hx
        exact absurd hx this
      rw [List.find?_cons, hpred]

/-- In the final store of an unblocked run, the entry of a captured idle job `j` is
exactly `runJob` applied to `j` (given pairwise-distinct ids). -/
lemma startProcessing_entry_processed (svc : Services) (p : String) (s : Option String)
    (jobs0 : List BulkJobItem) (hN : (jobs0.map BulkJobItem.id).Nodup)
    (h0 : ¬ jobs0.length = 0) (hsp : specPresent p s = true)
    (j : BulkJobItem) (hj : j ∈ jobs0) (hidle : j.scrapeStatus = .idle) :
    ∀ e ∈ (startProcessing svc p s jobs0).1, e.id = j.id → e = runJob svc p s j j := by
  intro e he heid
  rw [startProcessing_fst svc p s jobs0 h0 hsp, foldStore_eq_map svc p s jobs0 jobs0 hN]
    at he
  rw [List.mem_map] at he
  obtain ⟨e0, he0, hee⟩ := he
  have hfind : jobs0.find? (fun jb : BulkJobItem =>
      jb.scrapeStatus == Status.idle && jb.id == e0.id) = some j := by
    cases hf : jobs0.find? (fun jb : BulkJobItem =>
        jb.scrapeStatus == Status.idle && jb.id == e0.id) with
    | none =>
      rw [List.find?_eq_none] at hf
      have he0id : e0.id = j.id := by
        have : e.id = e0.id := by
          rw [← hee]
          cases hf2 : jobs0.find? (fun jb : BulkJobItem =>
              jb.scrapeStatus == Status.idle && jb.id == e0.id) with
          | none => rfl
          | some jb => exact runJob_id svc p s jb e0
        rw [← this, heid]
      exact absurd
        (show (j.scrapeStatus == Status.idle && j.id == e0.id) = true by
          simp [hidle, he0id])
        (hf j hj)
    | some jb =>
      have hmem : jb ∈ jobs0 :=
        @List.mem_of_find?_eq_some BulkJobItem
          (fun jb : BulkJobItem => jb.scrapeStatus == Status.idle && jb.id == e0.id)
          jb jobs0 hf
      have hp : (jb.scrapeStatus == Status.idle && jb.id == e0.id) = true :=
        @List.find?_some BulkJobItem
          (fun jb : BulkJobItem => jb.scrapeStatus == Status.idle && jb.id == e0.id)
          jb jobs0 hf
      rw [Bool.and_eq_true, beq_iff_eq, beq_iff_eq] at hp
      have he0id : e0.id = j.id := by
        have hei : e.id = e0.id := by
          rw [← hee, hf]
          exact runJob_id svc p s jb e0
        rw [← hei, heid]
      have : jb = j :=
        List.inj_on_of_nodup_map hN hmem hj (by rw [hp.2, he0id])
      rw [this]
  rw [hfind] at hee
  have he0j : e0 = j := by
    have hei : e.id = e0.id := by rw [← hee]; exact runJob_id svc p s j e0
    exact List.inj_on_of_nodup_map hN he0 hj (by rw [← hei, heid])
  rw [← hee, he0j]

/-- In the final store of any run, the entry of a captured non-idle job is
unchanged (given pairwise-distinct ids): such jobs are skipped. -/
lemma startProcessing_entry_skipped (svc : Services) (p : String) (s : Option String)
    (jobs0 : List BulkJobItem) (hN : (jobs0.map BulkJobItem.id).Nodup)
    (h0 : ¬ jobs0.length = 0) (hsp : specPresent p s = true)
    (j : BulkJobItem) (hj : j ∈ jobs0) (hidle : ¬ j.scrapeStatus = .idle) :
    ∀ e ∈ (startProcessing svc p s jobs0).1, e.id = j.id → e = j := by
  intro e he heid
  rw [startProcessing_fst svc p s jobs0 h0 hsp, foldStore_eq_map svc p s jobs0 jobs0 hN]
    at he
  rw [List.mem_map] at he
  obtain ⟨e0, he0, hee⟩ := he
  have hfind : jobs0.find? (fun jb : BulkJobItem =>
      jb.scrapeStatus == Status.idle && jb.id == e0.id) = none := by
    rw [List.find?_eq_none]
    intro jb hjb hp
    rw [Bool.and_eq_true, beq_iff_eq, beq_iff_eq] at hp
    have he0id : e0.id = j.id := by
      have hei : e.id = e0.id := by
        rw [← hee]
        cases hf2 : jobs0.find? (fun x : BulkJobItem =>
            x.scrapeStatus == Status.idle && x.id == e0.id) with
        | none => rfl
        | some jx => exact runJob_id svc p s jx e0
      rw [← hei, heid]
    have : jb = j :=
      List.inj_on_of_nodup_map hN hjb hj (by rw [hp.2, he0id])
    rw [this] at hp
    exact hidle hp.1
  rw [hfind] at hee
  have he0j : e0 = j := by
    have hei : e.id = e0.id := by rw [← hee]
    exact List.inj_on_of_nodup_map hN he0 hj (by rw [← hei, heid])
  rw [← hee, he0j]

/-! ## Helper lemmas about completion counting -/

/-- A pointwise map that never un-satisfies a predicate cannot shrink the filter. -/
lemma length_filter_le_map (q : BulkJobItem → Bool) (g : BulkJobItem → BulkJobItem) :
    ∀ st : List BulkJobItem, (∀ j ∈ st, q j = true → q (g j) = true) →
      (st.filter q).length ≤ ((st.map g).filter q).length := by
  intro st
  induction st with
  | nil => intro _; exact Nat.le_refl _
  | cons j rest ih =>
    intro h
    have hrest := ih (fun x hx => h x (List.mem_cons_of_mem j hx))
    rw [List.map_cons, List.filter_cons, List.filter_cons]
    by_cases hc : q j = true
    · rw [if_pos hc, if_pos (h j (List.mem_cons_self j rest) hc)]
      simpa using Nat.succ_le_succ hrest
    · rw [if_neg hc]
      by_cases hg : q (g j) = true
      · rw [if_pos hg]
        exact Nat.le_trans hrest (by simp)
      · rw [if_neg hg]
        exact hrest

/-- A keyed store update that never un-completes the keyed entries cannot decrease
the completed count. -/
lemma completedJobs_le_updateJob (p : String) (s : Option String) (i : String)
    (u : BulkJobItem → BulkJobItem) (st : List BulkJobItem)
    (h : ∀ j ∈ st, j.id = i → isCompleted p s j = true → isCompleted p s (u j) = true) :
    completedJobs p s st ≤ completedJobs p s (updateJob st i u) := by
  unfold completedJobs updateJob
  apply length_filter_le_map
  intro j hj hc
  by_cases hid : j.id = i
  · rw [if_pos hid]
    exact h j hj hid hc
  · rw [if_neg hid]
    exact hc

/-- Transport of a per-entry fact across one keyed update. -/
lemma updateJob_entry (st : List BulkJobItem) (i : String) (u : BulkJobItem → BulkJobItem)
    (Q Q' : BulkJobItem → Prop)
    (hQ : ∀ j, Q j → Q' (u j)) (hid : ∀ j, (u j).id = j.id)
    (h : ∀ j ∈ st, j.id = i → Q j) :
    ∀ j ∈ updateJob st i u, j.id = i → Q' j := by
  intro j hj hji
  unfold updateJob at hj
  rw [List.mem_map] at hj
  obtain ⟨j0, hj0, hj0e⟩ := hj
  by_cases h0 : j0.id = i
  · rw [if_pos h0] at hj0e
    rw [← hj0e]
    exact hQ j0 (h j0 hj0 h0)
  · rw [if_neg h0] at hj0e
    rw [← hj0e] at hji
    exact absurd hji h0

/-- An entry with idle scrape status does not count as completed. -/
lemma isCompleted_scrape_idle (p : String) (s : Option String) (j : BulkJobItem)
    (h : j.scrapeStatus = .idle) : isCompleted p s j = false := by
  simp [isCompleted, h]

/-- An entry with pending scrape status does not count as completed. -/
lemma isCompleted_scrape_pending (p : String) (s : Option String) (j : BulkJobItem)
    (h : j.scrapeStatus = .pending) : isCompleted p s j = false := by
  simp [isCompleted, h]

/-- With a configured transformSpec, an extraction-succeeded entry whose transform
state is idle or pending does not yet count as completed. -/
lemma isCompleted_transform_open (p : String) (s : Option String) (j : BulkJobItem)
    (hsp : specPresent p s = true) (h : j.scrapeStatus = .success)
    (ht : j.transformStatus = .idle ∨ j.transformStatus = .pending) :
    isCompleted p s j = false := by
  rcases ht with ht | ht <;> simp [isCompleted, h, hsp, ht]

/-- An entry with failed scrape status always counts as completed. -/
lemma isCompleted_scrape_failed (p : String) (s : Option String) (j : BulkJobItem)
    (h : j.scrapeStatus = .failed) : isCompleted p s j = true := by
  simp [isCompleted, h]

/-- Marking the transform stage successful preserves completedness. -/
lemma isCompleted_after_transform_done (p : String) (s : Option String) (j : BulkJobItem)
    (t : String) (h : isCompleted p s j = true) :
    isCompleted p s { j with transformStatus := .success, transformedData := some t }
      = true := by
  unfold isCompleted at *
  cases hsc : j.scrapeStatus <;> simp [hsc] at h ⊢

/-! ## Branch equations for the per-job update sequence -/

/-- Update sequence when scraping reports failure. -/
lemma processJobUpdates_scrape_failed_eq (svc : Services) (p : String) (s : Option String)
    (job : BulkJobItem) (h : (svc.scrape job.url).status = .failed) :
    processJobUpdates svc p s job =
      [fun j => { j with scrapeStatus := .pending },
       fun j => { j with scrapeStatus := .failed, error := (svc.scrape job.url).error }] := by
  simp only [processJobUpdates]
  rw [if_pos h]

/-- Update sequence when scraping succeeds, a transform is configured, and the
transformer resolves with `t`. -/
lemma processJobUpdates_ok_eq (svc : Services) (p : String) (s : Option String)
    (job : BulkJobItem) (t : String)
    (h1 : ¬ (svc.scrape job.url).status = .failed) (h2 : specPresent p s = true)
    (h3 : svc.transform (svc.scrape job.url).content p s = .ok t) :
    processJobUpdates svc p s job =
      [fun j => { j with scrapeStatus := .pending },
       fun j => { j with scrapeStatus := .success, scrapedData := some (svc.scrape job.url) },
       fun j => { j with transformStatus := .pending },
       fun j => { j with transformStatus := .success, transformedData := some t }] := by
  simp only [processJobUpdates]
  rw [if_neg h1, if_pos h2, h3]

/-- Update sequence when scraping succeeds, a transform is configured, and the
transformer throws with message `m`: the final patch fails BOTH stages. -/
lemma processJobUpdates_err_eq (svc : Services) (p : String) (s : Option String)
    (job : BulkJobItem) (m : String)
    (h1 : ¬ (svc.scrape job.url).status = .failed) (h2 : specPresent p s = true)
    (h3 : svc.transform (svc.scrape job.url).content p s = .error m) :
    processJobUpdates svc p s job =
      [fun j => { j with scrapeStatus := .pending },
       fun j => { j with scrapeStatus := .success, scrapedData := some (svc.scrape job.url) },
       fun j => { j with transformStatus := .pending },
       fun j =>
         { j with
           scrapeStatus := .failed
           transformStatus := .failed
           error := some m }] := by
  simp only [processJobUpdates]
  rw [if_neg h1, if_pos h2, h3]

/-- Update sequence when scraping succeeds and no transform is configured. -/
lemma processJobUpdates_no_spec_eq (svc : Services) (p : String) (s : Option String)
    (job : BulkJobItem)
    (h1 : ¬ (svc.scrape job.url).status = .failed) (h2 : specPresent p s = false) :
    processJobUpdates svc p s job =
      [fun j => { j with scrapeStatus := .pending },
       fun j => { j with scrapeStatus := .success, scrapedData := some (svc.scrape job.url) }] := by
  simp only [processJobUpdates]
  rw [if_neg h1, if_neg (by simp [h2])]

/-- `processJob` always performs at least one store update. -/
lemma processJobUpdates_ne_nil (svc : Services) (p : String) (s : Option String)
    (job : BulkJobItem) : processJobUpdates svc p s job ≠ [] := by
  simp only [processJobUpdates]
  split
  · simp
  · split
    · split <;> simp
    · simp

/-- The first snapshot of a job's trace is the incoming store, and the trace keeps at
least one further snapshot. -/
lemma jobTrace_cons (svc : Services) (p : String) (s : Option String)
    (st : List BulkJobItem) (job : BulkJobItem) :
    ∃ l, jobTrace svc p s st job = st :: l ∧ l ≠ [] := by
  unfold jobTrace
  cases hu : processJobUpdates svc p s job with
  | nil => exact absurd hu (processJobUpdates_ne_nil svc p s job)
  | cons u us =>
    refine ⟨(processJobUpdates svc p s job).tail.scanl
      (fun cur v => updateJob cur job.id v) (updateJob st job.id u), ?_, ?_⟩
    · rw [hu]
      rfl
    · rw [hu]
      have : ((us.scanl (fun cur v => updateJob cur job.id v)
          (updateJob st job.id u))).length = us.length + 1 := List.length_scanl _ _
      intro hnil
      rw [List.tail_cons] at hnil
      rw [hnil] at this
      simp at this

/-- The first snapshot of a run trace is the starting store. -/
lemma runTraceAux_head (svc : Services) (p : String) (s : Option String) :
    ∀ (todo st : List BulkJobItem), (runTraceAux svc p s todo st).head? = some st := by
  intro todo
  induction todo with
  | nil => intro st; rfl
  | cons job rest ih =>
    intro st
    unfold runTraceAux
    by_cases h : job.scrapeStatus = .idle
    · rw [if_pos h]
      obtain ⟨l, hl, hlne⟩ := jobTrace_cons svc p s st job
      rw [hl]
      cases l with
      | nil => exact absurd rfl hlne
      | cons x l' => rfl
    · rw [if_neg h]
      exact ih st

/-- Processing one job preserves the idle/idle entry invariant for the remaining
captured jobs (whose ids differ from the processed id). -/
lemma inv_preserved (svc : Services) (p : String) (s : Option String)
    (st : List BulkJobItem) (job : BulkJobItem) (rest : List BulkJobItem)
    (hnotin : job.id ∉ rest.map BulkJobItem.id)
    (hInv : ∀ jb ∈ job :: rest, jb.scrapeStatus = .idle →
      ∀ e ∈ st, e.id = jb.id → e.scrapeStatus = .idle ∧ e.transformStatus = .idle) :
    ∀ jb ∈ rest, jb.scrapeStatus = .idle →
      ∀ e ∈ processJob svc p s st job, e.id = jb.id →
        e.scrapeStatus = .idle ∧ e.transformStatus = .idle := by
  intro jb hjb hjidle e he heid
  rw [processJob_eq_map, List.mem_map] at he
  obtain ⟨e0, he0, hee⟩ := he
  by_cases h0 : e0.id = job.id
  · rw [if_pos h0] at hee
    have hj : jb.id = job.id := by
      rw [← heid, ← hee, runJob_id, h0]
    exact absurd (hj ▸ List.mem_map_of_mem BulkJobItem.id hjb) hnotin
  · rw [if_neg h0] at hee
    rw [← hee]
    refine hInv jb (List.mem_cons_of_mem job hjb) hjidle e0 he0 ?_
    rw [← hee] at heid
    exact heid

/-- Along the snapshots of one run, the completed count never decreases (given
pairwise-distinct captured ids and idle-scrape entries having idle transform). -/
lemma chain_completed_runTraceAux (svc : Services) (p : String) (s : Option String)
    (hsp : specPresent p s = true) :
    ∀ (todo st : List BulkJobItem),
      (todo.map BulkJobItem.id).Nodup →
      (∀ jb ∈ todo, jb.scrapeStatus = .idle →
        ∀ e ∈ st, e.id = jb.id → e.scrapeStatus = .idle ∧ e.transformStatus = .idle) →
      List.Chain' (fun a b => completedJobs p s a ≤ completedJobs p s b)
        (runTraceAux svc p s todo st) := by
  intro todo
  induction todo with
  | nil =>
    intro st _ _
    simp [runTraceAux]
  | cons job rest ih =>
    intro st hN hInv
    rw [List.map_cons, List.nodup_cons] at hN
    unfold runTraceAux
    by_cases hidle : job.scrapeStatus = .idle
    case neg =>
      rw [if_neg hidle]
      exact ih st hN.2 (fun jb hjb => hInv jb (List.mem_cons_of_mem job hjb))
    case pos =>
    rw [if_pos hidle]
    have hE0 : ∀ e ∈ st, e.id = job.id → e.scrapeStatus = .idle ∧ e.transformStatus = .idle :=
      hInv job (List.mem_cons_self job rest) hidle
    have hchainrest := ih (processJob svc p s st job) hN.2
      (inv_preserved svc p s st job rest hN.1 hInv)
    have hhead := runTraceAux_head svc p s rest (processJob svc p s st job)
    have hstep0 : completedJobs p s st ≤ completedJobs p s
        (updateJob st job.id (fun j => { j with scrapeStatus := .pending })) := by
      apply completedJobs_le_updateJob
      intro j hj hjid hc
      rw [isCompleted_scrape_idle p s j (hE0 j hj hjid).1] at hc
      cases hc
    have hE1 : ∀ e ∈ updateJob st job.id (fun j => { j with scrapeStatus := .pending }),
        e.id = job.id → e.scrapeStatus = .pending ∧ e.transformStatus = .idle := by
      apply updateJob_entry st job.id _
        (fun e => e.scrapeStatus = .idle ∧ e.transformStatus = .idle)
      · intro j hj
        exact ⟨rfl, hj.2⟩
      · intro j
        rfl
      · exact hE0
    by_cases hsf : (svc.scrape job.url).status = .failed
    · -- scrape-failure branch: snapshots st, A1, A2
      have hPJ : processJob svc p s st job
          = updateJob (updateJob st job.id (fun j => { j with scrapeStatus := .pending }))
              job.id
              (fun j =>
                { j with
                  scrapeStatus := .failed
                  error := (svc.scrape job.url).error }) := by
        unfold processJob
        rw [processJobUpdates_scrape_failed_eq svc p s job hsf]
        rfl
      simp only [jobTrace]
      rw [processJobUpdates_scrape_failed_eq svc p s job hsf]
      simp only [List.scanl, List.dropLast, List.cons_append, List.nil_append]
      refine List.chain'_cons.mpr ⟨hstep0, ?_⟩
      refine List.chain'_cons'.mpr ⟨?_, hchainrest⟩
      intro y hy
      rw [hhead, Option.mem_some_iff] at hy
      rw [← hy, hPJ]
      apply completedJobs_le_updateJob
      intro j hj hjid hc
      exact isCompleted_scrape_failed p s _ rfl
    · -- scrape succeeded: the transform step runs (hsp)
      have hE2 : ∀ e ∈ updateJob
          (updateJob st job.id (fun j => { j with scrapeStatus := .pending }))
          job.id
          (fun j =>
            { j with
              scrapeStatus := .success
              scrapedData := some (svc.scrape job.url) }),
          e.id = job.id → e.scrapeStatus = .success ∧ e.transformStatus = .idle := by
        apply updateJob_entry _ job.id _
          (fun e => e.scrapeStatus = .pending ∧ e.transformStatus = .idle)
        · intro j hj
          exact ⟨rfl, hj.2⟩
        · intro j
          rfl
        · exact hE1
      have hstep1 : completedJobs p s
          (updateJob st job.id (fun j => { j with scrapeStatus := .pending }))
          ≤ completedJobs p s
            (updateJob
              (updateJob st job.id (fun j => { j with scrapeStatus := .pending }))
              job.id
              (fun j =>
                { j with
                  scrapeStatus := .success
                  scrapedData := some (svc.scrape job.url) })) := by
        apply completedJobs_le_updateJob
        intro j hj hjid hc
        rw [isCompleted_scrape_pending p s j (hE1 j hj hjid).1] at hc
        cases hc
      have hstep2 : completedJobs p s
          (updateJob
            (updateJob st job.id (fun j => { j with scrapeStatus := .pending }))
            job.id
            (fun j =>
              { j with
                scrapeStatus := .success
                scrapedData := some (svc.scrape job.url) }))
          ≤ completedJobs p s
            (updateJob
              (updateJob
                (updateJob st job.id (fun j => { j with scrapeStatus := .pending }))
                job.id
                (fun j =>
                  { j with
                    scrapeStatus := .success
                    scrapedData := some (svc.scrape job.url) }))
              job.id
              (fun j => { j with transformStatus := .pending })) := by
        apply completedJobs_le_updateJob
        intro j hj hjid hc
        have hf := isCompleted_transform_open p s j hsp (hE2 j hj hjid).1
          (Or.inl (hE2 j hj hjid).2)
        rw [hf] at hc
        cases hc
      cases htr : svc.transform (svc.scrape job.url).content p s with
      | ok t =>
        have hPJ : processJob svc p s st job
            = updateJob
                (updateJob
                  (updateJob
                    (updateJob st job.id (fun j => { j with scrapeStatus := .pending }))
                    job.id
                    (fun j =>
                      { j with
                        scrapeStatus := .success
                        scrapedData := some (svc.scrape job.url) }))
                  job.id
                  (fun j => { j with transformStatus := .pending }))
                job.id
                (fun j =>
                  { j with
                    transformStatus := .success
                    transformedData := some t }) := by
          unfold processJob
          rw [processJobUpdates_ok_eq svc p s job t hsf hsp htr]
          rfl
        simp only [jobTrace]
        rw [processJobUpdates_ok_eq svc p s job t hsf hsp htr]
        simp only [List.scanl, List.dropLast, List.cons_append, List.nil_append]
        refine List.chain'_cons.mpr ⟨hstep0, ?_⟩
        refine List.chain'_cons.mpr ⟨hstep1, ?_⟩
        refine List.chain'_cons.mpr ⟨hstep2, ?_⟩
        refine List.chain'_cons'.mpr ⟨?_, hchainrest⟩
        intro y hy
        rw [hhead, Option.mem_some_iff] at hy
        rw [← hy, hPJ]
        apply completedJobs_le_updateJob
        intro j hj hjid hc
        exact isCompleted_after_transform_done p s j t hc
      | error m =>
        have hPJ : processJob svc p s st job
            = updateJob
                (updateJob
                  (updateJob
                    (updateJob st job.id (fun j => { j with scrapeStatus := .pending }))
                    job.id
                    (fun j =>
                      { j with
                        scrapeStatus := .success
                        scrapedData := some (svc.scrape job.url) }))
                  job.id
                  (fun j => { j with transformStatus := .pending }))
                job.id
                (fun j =>
                  { j with
                    scrapeStatus := .failed
                    transformStatus := .failed
                    error := some m }) := by
          unfold processJob
          rw [processJobUpdates_err_eq svc p s job m hsf hsp htr]
          rfl
        simp only [jobTrace]
        rw [processJobUpdates_err_eq svc p s job m hsf hsp htr]
        simp only [List.scanl, List.dropLast, List.cons_append, List.nil_append]
        refine List.chain'_cons.mpr ⟨hstep0, ?_⟩
        refine List.chain'_cons.mpr ⟨hstep1, ?_⟩
        refine List.chain'_cons.mpr ⟨hstep2, ?_⟩
        refine List.chain'_cons'.mpr ⟨?_, hchainrest⟩
        intro y hy
        rw [hhead, Option.mem_some_iff] at hy
        rw [← hy, hPJ]
        apply completedJobs_le_updateJob
        intro j hj hjid hc
        exact isCompleted_scrape_failed p s _ rfl

/-! ## Uniqueness of generated job ids -/

/-- Decimal digit list of a natural number (most significant digit first), the
fuel-free counterpart of `Nat.toDigits 10`. -/
def decDigits (n : Nat) : List Char :=
  if h : n < 10 then [Nat.digitChar n]
  else decDigits (n / 10) ++ [Nat.digitChar (n % 10)]
termination_by n
decreasing_by
  exact Nat.div_lt_self (by omega) (by omega)

/-- Unfolding of `decDigits` below ten. -/
lemma decDigits_small (n : Nat) (h : n < 10) : decDigits n = [Nat.digitChar n] := by
  conv_lhs => rw [decDigits]
  rw [dif_pos h]

/-- Unfolding of `decDigits` at ten or above. -/
lemma decDigits_big (n : Nat) (h : ¬ n < 10) :
    decDigits n = decDigits (n / 10) ++ [Nat.digitChar (n % 10)] := by
  conv_lhs => rw [decDigits]
  rw [dif_neg h]

/-- The fueled core printer agrees with `decDigits` whenever the fuel suffices. -/
lemma toDigitsCore_eq_decDigits :
    ∀ (fuel n : Nat) (ds : List Char), n < fuel →
      Nat.toDigitsCore 10 fuel n ds = decDigits n ++ ds := by
  intro fuel
  induction fuel with
  | zero =>
    intro n ds h
    omega
  | succ fuel ih =>
    intro n ds h
    show (if n / 10 = 0 then Nat.digitChar (n % 10) :: ds
      else Nat.toDigitsCore 10 fuel (n / 10) (Nat.digitChar (n % 10) :: ds))
      = decDigits n ++ ds
    by_cases h0 : n / 10 = 0
    · rw [if_pos h0]
      have hn : n < 10 := (Nat.div_eq_zero_iff (by omega)).mp h0
      rw [decDigits_small n hn, Nat.mod_eq_of_lt hn]
      rfl
    · rw [if_neg h0]
      have hge : 10 ≤ n := by
        by_contra hc
        exact h0 ((Nat.div_eq_zero_iff (by omega)).mpr (by omega))
      have hlt : n / 10 < fuel :=
        Nat.lt_of_lt_of_le (Nat.div_lt_self (by omega) (by omega)) (by omega)
      rw [ih (n / 10) (Nat.digitChar (n % 10) :: ds) hlt]
      rw [decDigits_big n (by omega)]
      simp

/-- `Nat.toDigits 10` equals the fuel-free digit list. -/
lemma toDigits_eq_decDigits (n : Nat) : Nat.toDigits 10 n = decDigits n := by
  rw [Nat.toDigits, toDigitsCore_eq_decDigits (n + 1) n [] (Nat.lt_succ_self n),
    List.append_nil]

/-- `Nat.digitChar` separates digits below ten. -/
lemma digitChar_inj_lt (a b : Nat) (ha : a < 10) (hb : b < 10)
    (h : Nat.digitChar a = Nat.digitChar b) : a = b := by
  interval_cases a <;> interval_cases b <;> revert h <;> decide

/-- Digit lists are never empty. -/
lemma decDigits_ne_nil (n : Nat) : decDigits n ≠ [] := by
  rw [decDigits]
  split
  · simp
  · simp

/-- Distinct numbers have distinct digit lists. -/
lemma decDigits_inj : ∀ a b : Nat, decDigits a = decDigits b → a = b := by
  intro a
  induction a using Nat.strong_induction_on with
  | _ a ih =>
    intro b h
    by_cases ha : a < 10 <;> by_cases hb : b < 10
    · rw [decDigits_small a ha, decDigits_small b hb] at h
      exact digitChar_inj_lt a b ha hb (List.cons.inj h).1
    · rw [decDigits_small a ha, decDigits_big b hb] at h
      have hL := congrArg List.length h
      have hpos : 0 < (decDigits (b / 10)).length :=
        List.length_pos.mpr (decDigits_ne_nil (b / 10))
      simp only [List.length_append, List.length_cons, List.length_nil] at hL
      omega
    · rw [decDigits_big a ha, decDigits_small b hb] at h
      have hL := congrArg List.length h
      have hpos : 0 < (decDigits (a / 10)).length :=
        List.length_pos.mpr (decDigits_ne_nil (a / 10))
      simp only [List.length_append, List.length_cons, List.length_nil] at hL
      omega
    · rw [decDigits_big a ha, decDigits_big b hb] at h
      have hlen : (decDigits (a / 10)).length = (decDigits (b / 10)).length := by
        have := congrArg List.length h
        simp at this
        omega
      obtain ⟨h1, h2⟩ := List.append_inj h hlen
      have e1 : a / 10 = b / 10 :=
        ih (a / 10) (Nat.div_lt_self (by omega) (by omega)) (b / 10) h1
      have e2 : a % 10 = b % 10 := by
        apply digitChar_inj_lt _ _ (Nat.mod_lt _ (by omega)) (Nat.mod_lt _ (by omega))
        exact (List.cons.inj h2).1
      omega

/-- `Nat.repr` is injective. -/
lemma natRepr_inj (a b : Nat) (h : Nat.repr a = Nat.repr b) : a = b := by
  have hdata : Nat.toDigits 10 a = Nat.toDigits 10 b := congrArg String.data h
  rw [toDigits_eq_decDigits, toDigits_eq_decDigits] at hdata
  exact decDigits_inj a b hdata

/-- For a fixed upload instant, distinct row indices give distinct job ids. -/
lemma mkJobId_inj_left (now a b : Nat) (h : mkJobId a now = mkJobId b now) : a = b := by
  unfold mkJobId at h
  have hd := congrArg String.data h
  simp only [String.data_append, List.append_assoc] at hd
  have h2 := List.append_cancel_left hd
  have hlen : (Nat.repr a).data.length = (Nat.repr b).data.length := by
    have := congrArg List.length h2
    simp only [List.length_append] at this
    omega
  have h3 := (List.append_inj h2 hlen).1
  exact natRepr_inj a b (by
    have : (Nat.repr a).data = (Nat.repr b).data := h3
    cases hra : Nat.repr a with
    | mk da =>
      cases hrb : Nat.repr b with
      | mk db =>
        rw [hra, hrb] at this
        simp at this
        rw [this])

/-! ## Helper lemmas about job creation -/

/-- A kept row produces the job with the expected fields. -/
lemma rowToJob_some (now : Nat) (k : Nat) (r : UrlRow) (h : ¬ rowUrl r = "") :
    rowToJob now (k, r) = some
      { id := mkJobId k now
        url := jsTrim (rowUrl r)
        scrapeStatus := .idle
        scrapedData := none
        transformStatus := .idle
        transformedData := none
        error := none } := by
  simp [rowToJob, h]

/-- A dropped row produces no job. -/
lemma rowToJob_none (now : Nat) (k : Nat) (r : UrlRow) (h : rowUrl r = "") :
    rowToJob now (k, r) = none := by
  simp [rowToJob, h]

/-- The urls of the created jobs are exactly the truthy cells, trimmed, in order. -/
lemma upload_urls_aux : ∀ (rows : List UrlRow) (n now : Nat),
    (((rows.enumFrom n).filterMap (rowToJob now)).map (fun j => j.url))
      = ((rows.map rowUrl).filter (fun u => u != "")).map jsTrim := by
  intro rows
  induction rows with
  | nil => intro n now; rfl
  | cons r rows ih =>
    intro n now
    show ((((n, r) :: rows.enumFrom (n + 1)).filterMap (rowToJob now)).map (fun j => j.url))
      = (((rowUrl r :: rows.map rowUrl)).filter (fun u => u != "")).map jsTrim
    by_cases hu : rowUrl r = ""
    · rw [List.filterMap_cons_none (rowToJob_none now n r hu),
        List.filter_cons_of_neg (by simp [hu])]
      exact ih (n + 1) now
    · rw [List.filterMap_cons_some (rowToJob_some now n r hu),
        List.filter_cons_of_pos (by simp [hu]), List.map_cons, List.map_cons]
      rw [ih (n + 1) now]

/-- Every id of a created job encodes a row index at least the enumeration start. -/
lemma upload_ids_aux : ∀ (rows : List UrlRow) (n now : Nat),
    (((rows.enumFrom n).filterMap (rowToJob now)).map (fun j => j.id)).Nodup
    ∧ (∀ x ∈ ((rows.enumFrom n).filterMap (rowToJob now)).map (fun j => j.id),
        ∃ k, n ≤ k ∧ x = mkJobId k now) := by
  intro rows
  induction rows with
  | nil =>
    intro n now
    exact ⟨List.nodup_nil, by simp⟩
  | cons r rows ih =>
    intro n now
    have hstep : ((r :: rows).enumFrom n).filterMap (rowToJob now)
        = ((n, r) :: rows.enumFrom (n + 1)).filterMap (rowToJob now) := rfl
    by_cases hu : rowUrl r = ""
    · rw [hstep, List.filterMap_cons_none (rowToJob_none now n r hu)]
      refine ⟨(ih (n + 1) now).1, ?_⟩
      intro x hx
      obtain ⟨k, hk, hkx⟩ := (ih (n + 1) now).2 x hx
      exact ⟨k, by omega, hkx⟩
    · rw [hstep, List.filterMap_cons_some (rowToJob_some now n r hu), List.map_cons]
      constructor
      · rw [List.nodup_cons]
        refine ⟨?_, (ih (n + 1) now).1⟩
        intro hmem
        obtain ⟨k, hk, hkx⟩ := (ih (n + 1) now).2 _ hmem
        have := mkJobId_inj_left now n k hkx
        omega
      · intro x hx
        rw [List.mem_cons] at hx
        rcases hx with hx | hx
        · exact ⟨n, Nat.le_refl n, hx⟩
        · obtain ⟨k, hk, hkx⟩ := (ih (n + 1) now).2 x hx
          exact ⟨k, by omega, hkx⟩

/-! ## Completion versus the spec's terminal predicate, and service totality -/

/-- The code's completion predicate coincides with the spec's terminal predicate. -/
lemma isCompleted_eq_specTerminal (p : String) (s : Option String) (j : BulkJobItem) :
    isCompleted p s j = specTerminal p s j := by
  unfold isCompleted specTerminal
  cases h : j.scrapeStatus <;> cases hsp : specPresent p s <;> simp [h, hsp]

/-- The completed count reaches the total exactly when every job is counted. -/
lemma completedJobs_eq_total_iff (p : String) (s : Option String)
    (st : List BulkJobItem) :
    completedJobs p s st = totalJobs st ↔ ∀ j ∈ st, isCompleted p s j = true := by
  unfold completedJobs totalJobs
  simpa using List.filter_length_eq_length

/-- `scrapeContentWithGenAI` always resolves: its catch converts every throw into an
ordinary string result. -/
lemma scrapeContentWithGenAI_ok (key : Bool) (api : ApiResult) :
    ∃ t, scrapeContentWithGenAI key api = Except.ok t := by
  cases key
  · exact ⟨scrapeCatchMsg keyMissingMsg, rfl⟩
  · cases api with
    | ok t => exact ⟨if t = "" then scrapeFallbackMsg else t, rfl⟩
    | thrown m => exact ⟨scrapeCatchMsg m, rfl⟩

/-- `scrapeUrl` always reports success: its own catch branch is unreachable. -/
lemma scrapeUrl_status (key : Bool) (api : ApiResult) (url : String) :
    (scrapeUrl key api url).status = ScrapeResultStatus.success := by
  obtain ⟨t, ht⟩ := scrapeContentWithGenAI_ok key api
  unfold scrapeUrl
  rw [ht]

/-- With no API key, `transformContent` throws the key-missing error. -/
lemma transformContent_no_key (api : ApiResult) (content prompt : String)
    (smp : Option String) :
    transformContent false api content prompt smp = Except.error keyMissingMsg := rfl

/-- An empty transformer response is replaced by the placeholder text and reported
as an ordinary success. -/
lemma transformContent_ok_empty (content prompt : String) (smp : Option String) :
    transformContent true (.ok "") content prompt smp
      = Except.ok "No content generated." := by
  unfold transformContent
  have hfence : stripCloseFence (stripOpenFence "") = "" := rfl
  simp only [getGenAIClient, hfence]
  have hbranch : (if (!containsSubstr (jsToLower prompt) "markdown" && jsFalsyStr smp) = true
      then stripMarkdownChars "" else "") = "" := by
    split
    · rfl
    · rfl
  rw [hbranch]
  rfl

/-! ## Concrete fixtures for witnesses and counterexamples -/

/-- A canned successful extraction result. -/
def okScrape (u : String) : ScrapedContent :=
  { url := u
    title := "T"
    description := "D"
    content := "C"
    h1 := ["T"]
    links := 0
    status := .success
    error := none
    metadata := none }

/-- A canned failed extraction result carrying the error "Blocked". -/
def blockedScrape (u : String) : ScrapedContent :=
  { url := u
    title := "Extraction Failed"
    description := "Could not retrieve content."
    content := ""
    h1 := []
    links := 0
    status := .failed
    error := some "Blocked"
    metadata := none }

/-- Services whose extractor and transformer both succeed. -/
def svcOk : Services :=
  { scrape := okScrape
    transform := fun _ _ _ => .ok "out" }

/-- Services whose extractor succeeds and whose transformer always throws "boom". -/
def svcBoom : Services :=
  { scrape := okScrape
    transform := fun _ _ _ => .error "boom" }

/-- Services whose extractor fails (with "Blocked") exactly on url "u2". -/
def svcBlocked : Services :=
  { scrape := fun u => if u = "u2" then blockedScrape u else okScrape u
    transform := fun _ _ _ => .ok "out" }

/-- A fresh idle job. -/
def jW : BulkJobItem :=
  { id := "a"
    url := "u1"
    scrapeStatus := .idle
    scrapedData := none
    transformStatus := .idle
    transformedData := none
    error := none }

/-- A second fresh idle job, on the url the blocked service rejects. -/
def jW2 : BulkJobItem :=
  { id := "b"
    url := "u2"
    scrapeStatus := .idle
    scrapedData := none
    transformStatus := .idle
    transformedData := none
    error := none }

/-- A third fresh idle job. -/
def jW3 : BulkJobItem :=
  { id := "c"
    url := "u3"
    scrapeStatus := .idle
    scrapedData := none
    transformStatus := .idle
    transformedData := none
    error := none }

/-- An already-terminal job (both stages finished). -/
def jT : BulkJobItem :=
  { id := "d"
    url := "u4"
    scrapeStatus := .success
    scrapedData := none
    transformStatus := .success
    transformedData := some "done"
    error := none }

/-- Oracle with no API key configured. -/
def envNoKey : Oracle :=
  { apiKeyPresent := false
    scrapeApi := fun _ => .ok "C"
    transformApi := fun _ => .ok "T" }

/-- Oracle whose transform call returns an empty response. -/
def envEmptyT : Oracle :=
  { apiKeyPresent := true
    scrapeApi := fun _ => .ok "C"
    transformApi := fun _ => .ok "" }

/-! ## Claim theorems -/

/-- C10: `scrapeUrl` is total and never returns a result with status 'failed':
`scrapeContentWithGenAI` catches every error (including a missing API key) and
returns the error text as an ordinary content string, so `scrapeUrl`'s own catch
branch — and hence the pipeline's extraction-failed path — is unreachable, and every
extraction (also through the bulk services) is reported as status 'success',
possibly with an error message as its content and as its inferred title. -/
theorem scrapeUrl_never_fails :
    (∀ (key : Bool) (api : ApiResult) (url : String),
        (scrapeUrl key api url).status = ScrapeResultStatus.success)
    ∧ (∀ (env : Oracle) (url : String),
        ((geminiServices env).scrape url).status = ScrapeResultStatus.success)
    ∧ (scrapeUrl true (.thrown "Blocked") "u").content
        = "Error accessing page: Blocked. Please check the URL."
    ∧ (scrapeUrl true (.thrown "Blocked") "u").title
        = "Error accessing page: Blocked. Please check the URL."
    ∧ (scrapeUrl false (.ok "x") "u").status = ScrapeResultStatus.success := by
  exact ⟨scrapeUrl_status, fun env url => scrapeUrl_status _ _ _,
    by decide, by decide, by decide⟩

/-- C3 counterexample: with an empty transformSpec (no prompt, no sample) the run is
refused up front: a store with one idle job gets zero extractor calls and the job
stays idle and incomplete — refuting "a run still performs extraction for every Idle
job and each job is complete as soon as its extraction succeeds or fails". -/
theorem empty_spec_run_counterexample :
    startProcessing svcOk "" none [jW] = ([jW], 0, 0)
    ∧ jW.scrapeStatus = Status.idle
    ∧ isCompleted "" none jW = false := by
  decide

/-- C3 amended: if the transformSpec is empty, `startProcessing` refuses to run (the
alert path): no extraction is performed, no external call is made, and no job state —
in particular no `transformStatus` — ever changes. -/
theorem empty_spec_refuses_run (svc : Services) (jobs0 : List BulkJobItem) :
    startProcessing svc "" none jobs0 = (jobs0, 0, 0)
    ∧ runTrace svc "" none jobs0 = [jobs0] := by
  constructor
  · unfold startProcessing
    split
    · rfl
    · rw [if_pos (show specPresent "" none = false from rfl)]
  · unfold runTrace
    split
    · rfl
    · rw [if_pos (show specPresent "" none = false from rfl)]

/-- C5: a run over a store whose jobs are all terminal performs zero scrape and zero
transform calls and leaves every job unchanged; by contrast, on any non-empty store
with a configured transformSpec, every captured idle job is processed (one scrape
call each). -/
theorem run_idempotent_on_terminal (svc : Services) (p : String) (s : Option String)
    (jobs0 jobs1 : List BulkJobItem)
    (hT : ∀ j ∈ jobs0, j.scrapeStatus = .success ∨ j.scrapeStatus = .failed)
    (h1 : ¬ jobs1.length = 0) (hsp : specPresent p s = true) :
    startProcessing svc p s jobs0 = (jobs0, 0, 0)
    ∧ (startProcessing svc p s jobs1).2.1
        = (jobs1.filter (fun j => j.scrapeStatus == Status.idle)).length := by
  constructor
  · apply startProcessing_all_terminal
    intro j hj
    rcases hT j hj with h | h <;> simp [h]
  · exact startProcessing_scrapeCalls svc p s jobs1 h1 hsp

/-- Witness for C5 at a concrete terminal store and a concrete idle store. -/
theorem run_idempotent_on_terminal_witness :
    startProcessing svcOk "p" none [jT] = ([jT], 0, 0)
    ∧ (startProcessing svcOk "p" none [jW]).2.1
        = ([jW].filter (fun j => j.scrapeStatus == Status.idle)).length :=
  run_idempotent_on_terminal svcOk "p" none [jT] [jW] (by decide) (by decide) (by decide)

/-- C6 counterexample: a whitespace-only URL cell is NOT dropped — it is truthy in
JavaScript, so it yields a job (whose trimmed url is empty), where the claim says
empty and whitespace-only entries are both dropped silently. -/
theorem whitespace_url_creates_job :
    (handleUrlFileUpload [{ URL := some " ", url := none }] 0).length = 1
    ∧ (handleUrlFileUpload [{ URL := some " ", url := none }] 0).map (fun j => j.url)
        = [""] := by
  decide

/-- C6 amended: job creation yields exactly one job per truthy (non-empty) URL cell —
a whitespace-only cell is kept and becomes a job whose trimmed url is empty — in the
cells' original relative order; every created job starts Idle/Idle with no payloads,
and the generated ids are pairwise distinct. -/
theorem upload_one_job_per_truthy_url (rows : List UrlRow) (now : Nat) :
    ((handleUrlFileUpload rows now).map (fun j => j.url)
        = ((rows.map rowUrl).filter (fun u => u != "")).map jsTrim)
    ∧ (∀ j ∈ handleUrlFileUpload rows now,
        j.scrapeStatus = .idle ∧ j.transformStatus = .idle ∧ j.scrapedData = none
          ∧ j.transformedData = none ∧ j.error = none)
    ∧ ((handleUrlFileUpload rows now).map (fun j => j.id)).Nodup := by
  refine ⟨upload_urls_aux rows 0 now, ?_, (upload_ids_aux rows 0 now).1⟩
  intro j hj
  unfold handleUrlFileUpload at hj
  rw [List.mem_filterMap] at hj
  obtain ⟨a, ha, hja⟩ := hj
  rcases a with ⟨k, r⟩
  by_cases hu : rowUrl r = ""
  · rw [rowToJob_none now k r hu] at hja
    cases hja
  · rw [rowToJob_some now k r hu] at hja
    rw [Option.some.injEq] at hja
    rw [← hja]
    exact ⟨rfl, rfl, rfl, rfl, rfl⟩

/-- C4: an extraction failure is recorded on that job only and never aborts the run:
with a configured transformSpec, a captured idle job `k` whose scrape reports
failure with message `e` ends with scrapeStatus Failed, the error `e`, and
transformStatus still Idle, while the run still performs one scrape call for every
captured idle job (including those after `k`). -/
theorem extraction_failure_recorded_per_job (svc : Services) (p : String)
    (s : Option String) (jobs0 : List BulkJobItem) (k : BulkJobItem) (e : String)
    (hN : (jobs0.map BulkJobItem.id).Nodup)
    (h0 : ¬ jobs0.length = 0) (hsp : specPresent p s = true)
    (hk : k ∈ jobs0) (hkidle : k.scrapeStatus = .idle) (hkt : k.transformStatus = .idle)
    (hfail : (svc.scrape k.url).status = .failed)
    (herr : (svc.scrape k.url).error = some e) :
    (∀ j ∈ (startProcessing svc p s jobs0).1, j.id = k.id →
        j.scrapeStatus = .failed ∧ j.error = some e ∧ j.transformStatus = .idle)
    ∧ (startProcessing svc p s jobs0).2.1
        = (jobs0.filter (fun j => j.scrapeStatus == Status.idle)).length := by
  constructor
  · intro j hj hid
    have hj2 := startProcessing_entry_processed svc p s jobs0 hN h0 hsp k hk hkidle j hj hid
    rw [hj2, runJob_scrape_failed svc p s k k hfail, herr]
    exact ⟨rfl, rfl, hkt⟩
  · exact startProcessing_scrapeCalls svc p s jobs0 h0 hsp

/-- Witness for C4: the extractor fails for job 2 of 3 with "Blocked". -/
theorem extraction_failure_recorded_per_job_witness :
    (∀ j ∈ (startProcessing svcBlocked "p" none [jW, jW2, jW3]).1, j.id = jW2.id →
        j.scrapeStatus = .failed ∧ j.error = some "Blocked" ∧ j.transformStatus = .idle)
    ∧ (startProcessing svcBlocked "p" none [jW, jW2, jW3]).2.1
        = ([jW, jW2, jW3].filter (fun j => j.scrapeStatus == Status.idle)).length :=
  extraction_failure_recorded_per_job svcBlocked "p" none [jW, jW2, jW3] jW2 "Blocked"
    (by decide) (by decide) (by decide) (by decide) (by decide) (by decide)
    (by decide) (by decide)

/-- The per-entry state-machine invariant of the amended C1: a transform stage away
from Idle entails a succeeded extraction, except in the transform-failure catch
state where both stages are Failed. -/
def jobInv (j : BulkJobItem) : Prop :=
  ¬ j.transformStatus = .idle →
    (j.scrapeStatus = .success ∨ (j.scrapeStatus = .failed ∧ j.transformStatus = .failed))

/-- A keyed update preserves a store-wide property when the patch preserves it on
the keyed entries. -/
lemma updateJob_forall (st : List BulkJobItem) (i : String)
    (u : BulkJobItem → BulkJobItem) (P : BulkJobItem → Prop)
    (h : ∀ j ∈ st, P j) (hkeep : ∀ j ∈ st, j.id = i → P (u j)) :
    ∀ j ∈ updateJob st i u, P j := by
  intro j hj
  unfold updateJob at hj
  rw [List.mem_map] at hj
  obtain ⟨j0, hj0, hj0e⟩ := hj
  by_cases h0 : j0.id = i
  · rw [if_pos h0] at hj0e
    rw [← hj0e]
    exact hkeep j0 hj0 h0
  · rw [if_neg h0] at hj0e
    rw [← hj0e]
    exact h j0 hj0

/-- The invariant `jobInv` holds in every snapshot of a run. -/
lemma jobInv_runTraceAux (svc : Services) (p : String) (s : Option String)
    (hsp : specPresent p s = true) :
    ∀ (todo st : List BulkJobItem),
      (todo.map BulkJobItem.id).Nodup →
      (∀ jb ∈ todo, jb.scrapeStatus = .idle →
        ∀ e ∈ st, e.id = jb.id → e.scrapeStatus = .idle ∧ e.transformStatus = .idle) →
      (∀ j ∈ st, jobInv j) →
      ∀ stx ∈ runTraceAux svc p s todo st, ∀ j ∈ stx, jobInv j := by
  intro todo
  induction todo with
  | nil =>
    intro st _ _ hP stx hstx
    rw [show runTraceAux svc p s [] st = [st] from rfl, List.mem_singleton] at hstx
    rw [hstx]
    exact hP
  | cons job rest ih =>
    intro st hN hInv hP stx hstx
    rw [List.map_cons, List.nodup_cons] at hN
    unfold runTraceAux at hstx
    by_cases hidle : job.scrapeStatus = .idle
    case neg =>
      rw [if_neg hidle] at hstx
      exact ih st hN.2 (fun jb hjb => hInv jb (List.mem_cons_of_mem job hjb)) hP stx hstx
    case pos =>
    rw [if_pos hidle] at hstx
    have hE0 : ∀ e ∈ st, e.id = job.id → e.scrapeStatus = .idle ∧ e.transformStatus = .idle :=
      hInv job (List.mem_cons_self job rest) hidle
    have hP1 : ∀ j ∈ updateJob st job.id (fun j => { j with scrapeStatus := .pending }),
        jobInv j := by
      apply updateJob_forall st job.id _ jobInv hP
      intro j hj hid hne
      exact absurd (hE0 j hj hid).2 hne
    have hE1 : ∀ e ∈ updateJob st job.id (fun j => { j with scrapeStatus := .pending }),
        e.id = job.id → e.scrapeStatus = .pending ∧ e.transformStatus = .idle := by
      apply updateJob_entry st job.id _
        (fun e => e.scrapeStatus = .idle ∧ e.transformStatus = .idle)
      · intro j hj
        exact ⟨rfl, hj.2⟩
      · intro j
        rfl
      · exact hE0
    by_cases hsf : (svc.scrape job.url).status = .failed
    · have hPJ : processJob svc p s st job
          = updateJob (updateJob st job.id (fun j => { j with scrapeStatus := .pending }))
              job.id
              (fun j =>
                { j with
                  scrapeStatus := .failed
                  error := (svc.scrape job.url).error }) := by
        unfold processJob
        rw [processJobUpdates_scrape_failed_eq svc p s job hsf]
        rfl
      have hP2 : ∀ j ∈ processJob svc p s st job, jobInv j := by
        rw [hPJ]
        apply updateJob_forall _ job.id _ jobInv hP1
        intro j hj hid hne
        exact absurd (hE1 j hj hid).2 hne
      simp only [jobTrace] at hstx
      rw [processJobUpdates_scrape_failed_eq svc p s job hsf] at hstx
      simp only [List.scanl, List.dropLast, List.cons_append, List.nil_append] at hstx
      rw [List.mem_cons, List.mem_cons] at hstx
      rcases hstx with hstx | hstx | hstx
      · rw [hstx]
        exact hP
      · rw [hstx]
        exact hP1
      · exact ih (processJob svc p s st job) hN.2
          (inv_preserved svc p s st job rest hN.1 hInv) hP2 stx hstx
    · have hE2 : ∀ e ∈ updateJob
          (updateJob st job.id (fun j => { j with scrapeStatus := .pending }))
          job.id
          (fun j =>
            { j with
              scrapeStatus := .success
              scrapedData := some (svc.scrape job.url) }),
          e.id = job.id → e.scrapeStatus = .success ∧ e.transformStatus = .idle := by
        apply updateJob_entry _ job.id _
          (fun e => e.scrapeStatus = .pending ∧ e.transformStatus = .idle)
        · intro j hj
          exact ⟨rfl, hj.2⟩
        · intro j
          rfl
        · exact hE1
      have hP2 : ∀ j ∈ updateJob
          (updateJob st job.id (fun j => { j with scrapeStatus := .pending }))
          job.id
          (fun j =>
            { j with
              scrapeStatus := .success
              scrapedData := some (svc.scrape job.url) }),
          jobInv j := by
        apply updateJob_forall _ job.id _ jobInv hP1
        intro j hj hid hne
        exact absurd (hE1 j hj hid).2 hne
      have hE3 : ∀ e ∈ updateJob
          (updateJob
            (updateJob st job.id (fun j => { j with scrapeStatus := .pending }))
            job.id
            (fun j =>
              { j with
                scrapeStatus := .success
                scrapedData := some (svc.scrape job.url) }))
          job.id (fun j => { j with transformStatus := .pending }),
          e.id = job.id → e.scrapeStatus = .success := by
        apply updateJob_entry _ job.id _
          (fun e => e.scrapeStatus = .success ∧ e.transformStatus = .idle)
        · intro j hj
          exact hj.1
        · intro j
          rfl
        · exact hE2
      have hP3 : ∀ j ∈ updateJob
          (updateJob
            (updateJob st job.id (fun j => { j with scrapeStatus := .pending }))
            job.id
            (fun j =>
              { j with
                scrapeStatus := .success
                scrapedData := some (svc.scrape job.url) }))
          job.id (fun j => { j with transformStatus := .pending }),
          jobInv j := by
        apply updateJob_forall _ job.id _ jobInv hP2
        intro j hj hid hne
        exact Or.inl (hE2 j hj hid).1
      cases htr : svc.transform (svc.scrape job.url).content p s with
      | ok t =>
        have hPJ : processJob svc p s st job
            = updateJob
                (updateJob
                  (updateJob
                    (updateJob st job.id (fun j => { j with scrapeStatus := .pending }))
                    job.id
                    (fun j =>
                      { j with
                        scrapeStatus := .success
                        scrapedData := some (svc.scrape job.url) }))
                  job.id (fun j => { j with transformStatus := .pending }))
                job.id
                (fun j =>
                  { j with
                    transformStatus := .success
                    transformedData := some t }) := by
          unfold processJob
          rw [processJobUpdates_ok_eq svc p s job t hsf hsp htr]
          rfl
        have hP4 : ∀ j ∈ processJob svc p s st job, jobInv j := by
          rw [hPJ]
          apply updateJob_forall _ job.id _ jobInv hP3
          intro j hj hid hne
          exact Or.inl (hE3 j hj hid)
        simp only [jobTrace] at hstx
        rw [processJobUpdates_ok_eq svc p s job t hsf hsp htr] at hstx
        simp only [List.scanl, List.dropLast, List.cons_append, List.nil_append] at hstx
        rw [List.mem_cons, List.mem_cons, List.mem_cons, List.mem_cons] at hstx
        rcases hstx with hstx | hstx | hstx | hstx | hstx
        · rw [hstx]; exact hP
        · rw [hstx]; exact hP1
        · rw [hstx]; exact hP2
        · rw [hstx]; exact hP3
        · exact ih (processJob svc p s st job) hN.2
            (inv_preserved svc p s st job rest hN.1 hInv) hP4 stx hstx
      | error m =>
        have hPJ : processJob svc p s st job
            = updateJob
                (updateJob
                  (updateJob
                    (updateJob st job.id (fun j => { j with scrapeStatus := .pending }))
                    job.id
                    (fun j =>
                      { j with
                        scrapeStatus := .success
                        scrapedData := some (svc.scrape job.url) }))
                  job.id (fun j => { j with transformStatus := .pending }))
                job.id
                (fun j =>
                  { j with
                    scrapeStatus := .failed
                    transformStatus := .failed
                    error := some m }) := by
          unfold processJob
          rw [processJobUpdates_err_eq svc p s job m hsf hsp htr]
          rfl
        have hP4 : ∀ j ∈ processJob svc p s st job, jobInv j := by
          rw [hPJ]
          apply updateJob_forall _ job.id _ jobInv hP3
          intro j hj hid hne
          exact Or.inr ⟨rfl, rfl⟩
        simp only [jobTrace] at hstx
        rw [processJobUpdates_err_eq svc p s job m hsf hsp htr] at hstx
        simp only [List.scanl, List.dropLast, List.cons_append, List.nil_append] at hstx
        rw [List.mem_cons, List.mem_cons, List.mem_cons, List.mem_cons] at hstx
        rcases hstx with hstx | hstx | hstx | hstx | hstx
        · rw [hstx]; exact hP
        · rw [hstx]; exact hP1
        · rw [hstx]; exact hP2
        · rw [hstx]; exact hP3
        · exact ih (processJob svc p s st job) hN.2
            (inv_preserved svc p s st job rest hN.1 hInv) hP4 stx hstx

/-- C1 counterexample: when the transformer throws for a job whose extraction
already succeeded (the trace shows scrapeStatus reaching 'success'), the catch marks
BOTH stages failed — extractionState does not stay Success as claimed. -/
theorem transform_failure_clobbers_extraction :
    ((startProcessing svcBoom "p" none [jW]).1.map
        (fun j => (j.scrapeStatus, j.transformStatus, j.error))
        = [(Status.failed, Status.failed, some "boom")])
    ∧ ((runTrace svcBoom "p" none [jW]).map (fun st => st.map (fun j => j.scrapeStatus))
        = [[.idle], [.pending], [.success], [.success], [.failed]]) := by
  decide

/-- C1 amended: in every snapshot of a run, `transformStatus` leaves Idle only after
extraction has succeeded (or in the transform-failure catch state where both stages
are Failed); and when the transformer throws for a job whose extraction succeeded,
the job ends with BOTH `scrapeStatus` and `transformStatus` Failed and the error
recorded — extractionState does not remain Success. -/
theorem transform_state_machine (svc : Services) (p : String) (s : Option String)
    (jobs0 : List BulkJobItem)
    (hN : (jobs0.map BulkJobItem.id).Nodup)
    (hP0 : ∀ j ∈ jobs0, jobInv j ∧ (j.scrapeStatus = .idle → j.transformStatus = .idle)) :
    (∀ stx ∈ runTrace svc p s jobs0, ∀ j ∈ stx, jobInv j)
    ∧ (∀ (k : BulkJobItem) (m : String), ¬ jobs0.length = 0 → specPresent p s = true →
        k ∈ jobs0 → k.scrapeStatus = .idle →
        ¬ (svc.scrape k.url).status = .failed →
        svc.transform (svc.scrape k.url).content p s = .error m →
        ∀ j ∈ (startProcessing svc p s jobs0).1, j.id = k.id →
          j.scrapeStatus = .failed ∧ j.transformStatus = .failed ∧ j.error = some m) := by
  constructor
  · unfold runTrace
    split
    · intro stx hstx
      rw [List.mem_singleton] at hstx
      rw [hstx]
      exact fun j hj => (hP0 j hj).1
    · split
      · intro stx hstx
        rw [List.mem_singleton] at hstx
        rw [hstx]
        exact fun j hj => (hP0 j hj).1
      · rename_i h0 hspf
        have hsp : specPresent p s = true := by
          cases hx : specPresent p s
          · exact absurd hx hspf
          · rfl
        apply jobInv_runTraceAux svc p s hsp jobs0 jobs0 hN
        · intro jb hjb hjidle e he heid
          have hej : e = jb := List.inj_on_of_nodup_map hN he hjb heid
          rw [hej]
          exact ⟨hjidle, (hP0 jb hjb).2 hjidle⟩
        · exact fun j hj => (hP0 j hj).1
  · intro k m h0 hsp hk hkidle hnf htr j hj hid
    have hj2 := startProcessing_entry_processed svc p s jobs0 hN h0 hsp k hk hkidle j hj hid
    rw [hj2, runJob_transform_err svc p s k k m hnf hsp htr]
    exact ⟨rfl, rfl, rfl⟩

/-- Witness for the amended C1 at a concrete store and throwing transformer. -/
theorem transform_state_machine_witness :
    (∀ stx ∈ runTrace svcBoom "p" none [jW], ∀ j ∈ stx, jobInv j)
    ∧ (∀ j ∈ (startProcessing svcBoom "p" none [jW]).1, j.id = jW.id →
        j.scrapeStatus = .failed ∧ j.transformStatus = .failed ∧ j.error = some "boom") :=
  have T := transform_state_machine svcBoom "p" none [jW] (by decide)
    (by
      intro j hj
      rw [List.mem_singleton] at hj
      rw [hj]
      exact ⟨fun hne => absurd rfl hne, fun _ => rfl⟩)
  ⟨T.1, T.2 jW "boom" (by decide) (by decide) (by decide) (by decide) (by decide) rfl⟩

/-- C2: `completedJobs` counts a job as completed exactly when the spec's terminal
predicate holds given the configured transformSpec; along the snapshots of any run
the completed count is monotonically non-decreasing; and it equals `totalJobs`
exactly when every job in the store is terminal. -/
theorem progress_contract (svc : Services) (p : String) (s : Option String)
    (jobs0 : List BulkJobItem)
    (hN : (jobs0.map BulkJobItem.id).Nodup)
    (hI : ∀ j ∈ jobs0, j.scrapeStatus = .idle → j.transformStatus = .idle) :
    (∀ j : BulkJobItem, isCompleted p s j = specTerminal p s j)
    ∧ List.Chain' (fun a b => completedJobs p s a ≤ completedJobs p s b)
        (runTrace svc p s jobs0)
    ∧ ∀ st : List BulkJobItem,
        completedJobs p s st = totalJobs st ↔ ∀ j ∈ st, specTerminal p s j = true := by
  refine ⟨fun j => isCompleted_eq_specTerminal p s j, ?_, ?_⟩
  · unfold runTrace
    split
    · exact List.chain'_singleton _
    · split
      · exact List.chain'_singleton _
      · rename_i h0 hspf
        have hsp : specPresent p s = true := by
          cases hx : specPresent p s
          · exact absurd hx hspf
          · rfl
        apply chain_completed_runTraceAux svc p s hsp jobs0 jobs0 hN
        intro jb hjb hjidle e he heid
        have hej : e = jb := List.inj_on_of_nodup_map hN he hjb heid
        rw [hej]
        exact ⟨hjidle, hI jb hjb hjidle⟩
  · intro st
    rw [completedJobs_eq_total_iff p s st]
    constructor
    · intro h j hj
      rw [← isCompleted_eq_specTerminal]
      exact h j hj
    · intro h j hj
      rw [isCompleted_eq_specTerminal]
      exact h j hj

/-- Witness for C2 at a concrete service, spec and one-job store. -/
theorem progress_contract_witness :
    ((List.map BulkJobItem.id [jW]).Nodup)
    ∧ List.Chain' (fun a b => completedJobs "p" none a ≤ completedJobs "p" none b)
        (runTrace svcOk "p" none [jW]) :=
  ⟨by decide, (progress_contract svcOk "p" none [jW] (by decide) (by decide)).2.1⟩

/-- C7 counterexample: with the API key missing, the run is NOT blocked before any
job starts — the lone idle job is processed (one scrape call), its extraction
"succeeds" with an error string as content, and the key error is recorded on the job
itself during processing (both stages Failed), not surfaced once up front. -/
theorem missing_key_not_fatal :
    ((startProcessing (geminiServices envNoKey) "p" none [jW]).2.1 = 1)
    ∧ ((startProcessing (geminiServices envNoKey) "p" none [jW]).1.map
        (fun j => (j.scrapeStatus, j.transformStatus, j.error))
        = [(Status.failed, Status.failed, some keyMissingMsg)]) := by
  decide

/-- C7 amended: a missing API key does not block the run and is not surfaced before
jobs start: every captured idle job is still processed (one scrape call each), its
extraction reports success, and the missing-key error surfaces per job when the
transform call throws, leaving both stages Failed with the key-missing message. -/
theorem missing_key_recorded_per_job (env : Oracle) (p : String) (s : Option String)
    (jobs0 : List BulkJobItem) (k : BulkJobItem)
    (hkey : env.apiKeyPresent = false)
    (hN : (jobs0.map BulkJobItem.id).Nodup)
    (h0 : ¬ jobs0.length = 0) (hsp : specPresent p s = true)
    (hk : k ∈ jobs0) (hkidle : k.scrapeStatus = .idle) :
    (∀ j ∈ (startProcessing (geminiServices env) p s jobs0).1, j.id = k.id →
        j.scrapeStatus = .failed ∧ j.transformStatus = .failed
          ∧ j.error = some keyMissingMsg)
    ∧ (startProcessing (geminiServices env) p s jobs0).2.1
        = (jobs0.filter (fun j => j.scrapeStatus == Status.idle)).length := by
  constructor
  · intro j hj hid
    have hj2 := startProcessing_entry_processed (geminiServices env) p s jobs0 hN h0 hsp
      k hk hkidle j hj hid
    have hnf : ¬ ((geminiServices env).scrape k.url).status = .failed := by
      show ¬ (scrapeUrl env.apiKeyPresent (env.scrapeApi k.url) k.url).status = .failed
      rw [scrapeUrl_status]
      decide
    have htr : (geminiServices env).transform
        ((geminiServices env).scrape k.url).content p s = .error keyMissingMsg := by
      show transformContent env.apiKeyPresent
        (env.transformApi ((geminiServices env).scrape k.url).content)
        ((geminiServices env).scrape k.url).content p s = Except.error keyMissingMsg
      rw [hkey]
      exact transformContent_no_key _ _ _ _
    rw [hj2, runJob_transform_err (geminiServices env) p s k k keyMissingMsg hnf hsp htr]
    exact ⟨rfl, rfl, rfl⟩
  · exact startProcessing_scrapeCalls _ p s jobs0 h0 hsp

/-- Witness for the amended C7 at the concrete keyless oracle. -/
theorem missing_key_recorded_per_job_witness :
    (∀ j ∈ (startProcessing (geminiServices envNoKey) "p" none [jW]).1, j.id = jW.id →
        j.scrapeStatus = .failed ∧ j.transformStatus = .failed
          ∧ j.error = some keyMissingMsg)
    ∧ (startProcessing (geminiServices envNoKey) "p" none [jW]).2.1
        = ([jW].filter (fun j => j.scrapeStatus == Status.idle)).length :=
  missing_key_recorded_per_job envNoKey "p" none [jW] jW rfl (by decide) (by decide)
    (by decide) (by decide) (by decide)

/-- C8 counterexample: an empty transformer response is NOT treated as a failure:
`transformContent` converts it to the placeholder text and the pipeline records the
job as transform Success with that placeholder as its result. -/
theorem empty_transform_response_is_success :
    transformContent true (.ok "") "C" "p" none = .ok "No content generated."
    ∧ ((startProcessing (geminiServices envEmptyT) "p" none [jW]).1.map
        (fun j => (j.transformStatus, j.transformedData))
        = [(Status.success, some "No content generated.")]) := by
  exact ⟨rfl, by decide⟩

/-- C8 amended: a transformer call that throws is recorded on the job as a
transformation error (transformStatus = Failed with the message — the same handler
also marks the extraction stage Failed); an empty transformer response is not a
failure: it is replaced by the placeholder "No content generated." and resolves. -/
theorem transform_throw_recorded_empty_is_placeholder (svc : Services) (p : String)
    (s : Option String) (jobs0 : List BulkJobItem) (k : BulkJobItem) (m : String)
    (hN : (jobs0.map BulkJobItem.id).Nodup)
    (h0 : ¬ jobs0.length = 0) (hsp : specPresent p s = true)
    (hk : k ∈ jobs0) (hkidle : k.scrapeStatus = .idle)
    (hnf : ¬ (svc.scrape k.url).status = .failed)
    (htr : svc.transform (svc.scrape k.url).content p s = .error m) :
    (∀ j ∈ (startProcessing svc p s jobs0).1, j.id = k.id →
        j.transformStatus = .failed ∧ j.error = some m ∧ j.scrapeStatus = .failed)
    ∧ (∀ (content prompt : String) (smp : Option String),
        transformContent true (.ok "") content prompt smp
          = .ok "No content generated.") := by
  constructor
  · intro j hj hid
    have hj2 := startProcessing_entry_processed svc p s jobs0 hN h0 hsp k hk hkidle j hj hid
    rw [hj2, runJob_transform_err svc p s k k m hnf hsp htr]
    exact ⟨rfl, rfl, rfl⟩
  · exact transformContent_ok_empty

/-- Witness for the amended C8 at a concrete throwing transformer. -/
theorem transform_throw_recorded_witness :
    (∀ j ∈ (startProcessing svcBoom "p" none [jW]).1, j.id = jW.id →
        j.transformStatus = .failed ∧ j.error = some "boom" ∧ j.scrapeStatus = .failed)
    ∧ (∀ (content prompt : String) (smp : Option String),
        transformContent true (.ok "") content prompt smp
          = .ok "No content generated.") :=
  transform_throw_recorded_empty_is_placeholder svcBoom "p" none [jW] jW "boom"
    (by decide) (by decide) (by decide) (by decide) (by decide) (by decide) rfl

/-- C9 counterexample: for an instruction that does not request markdown but with a
sample template supplied, the bold markup is NOT stripped: the transformer's
`**bold**` comes back verbatim — refuting "this holds whether or not a sample
template was supplied". -/
theorem sample_skips_markdown_strip :
    containsSubstr (jsToLower "summarize") "markdown" = false
    ∧ transformContent true (.ok "**bold**") "C" "summarize" (some "a,b,c")
        = .ok "**bold**"
    ∧ containsSubstr "**bold**" "**" = true := by
  exact ⟨by decide, rfl, by decide⟩

/-- C9 amended: when the instruction does not request markdown, the code-fence
wrapper is stripped in every case, and the bold/italic/heading character cleanup
runs exactly when the sample argument is falsy — absent, or supplied with empty
content (the source's guard is JS `!sampleFileContent`): with no sample and with an
empty-content sample the markup is stripped, while a supplied non-empty sample
template skips the cleanup, leaving fence stripping and trimming alone. -/
theorem markdown_strip_only_without_sample (raw content prompt smp : String)
    (hmd : containsSubstr (jsToLower prompt) "markdown" = false)
    (hsmp : ¬ smp = "") :
    transformContent true (.ok raw) content prompt none
      = .ok (if jsTrim (stripMarkdownChars (stripCloseFence (stripOpenFence raw))) = ""
             then "No content generated."
             else jsTrim (stripMarkdownChars (stripCloseFence (stripOpenFence raw))))
    ∧ transformContent true (.ok raw) content prompt (some "")
      = .ok (if jsTrim (stripMarkdownChars (stripCloseFence (stripOpenFence raw))) = ""
             then "No content generated."
             else jsTrim (stripMarkdownChars (stripCloseFence (stripOpenFence raw))))
    ∧ transformContent true (.ok raw) content prompt (some smp)
      = .ok (if jsTrim (stripCloseFence (stripOpenFence raw)) = ""
             then "No content generated."
             else jsTrim (stripCloseFence (stripOpenFence raw))) := by
  have hfalsy : jsFalsyStr (some smp) = false := by
    unfold jsFalsyStr
    rw [beq_eq_false_iff_ne]
    exact hsmp
  refine ⟨?_, ?_, ?_⟩
  · unfold transformContent
    simp only [getGenAIClient, hmd, Bool.not_false, jsFalsyStr, Bool.and_self, if_true]
  · unfold transformContent
    simp only [getGenAIClient, hmd, Bool.not_false, jsFalsyStr, beq_self_eq_true,
      Bool.and_self, if_true]
  · unfold transformContent
    simp only [getGenAIClient, hmd, Bool.not_false, hfalsy, Bool.and_false]
    rfl

/-- Witness for the amended C9 at a concrete fenced, markup-laden response. -/
theorem markdown_strip_only_without_sample_witness :
    containsSubstr (jsToLower "plain text please") "markdown" = false
    ∧ (¬ "s" = "")
    ∧ transformContent true (.ok "```csv\n**a**```") "C" "plain text please" none
      = .ok (if jsTrim (stripMarkdownChars (stripCloseFence (stripOpenFence
              "```csv\n**a**```"))) = ""
             then "No content generated."
             else jsTrim (stripMarkdownChars (stripCloseFence (stripOpenFence
              "```csv\n**a**```"))))
    ∧ transformContent true (.ok "```csv\n**a**```") "C" "plain text please" (some "")
      = .ok (if jsTrim (stripMarkdownChars (stripCloseFence (stripOpenFence
              "```csv\n**a**```"))) = ""
             then "No content generated."
             else jsTrim (stripMarkdownChars (stripCloseFence (stripOpenFence
              "```csv\n**a**```"))))
    ∧ transformContent true (.ok "```csv\n**a**```") "C" "plain text please" (some "s")
      = .ok (if jsTrim (stripCloseFence (stripOpenFence "```csv\n**a**```")) = ""
             then "No content generated."
             else jsTrim (stripCloseFence (stripOpenFence "```csv\n**a**```"))) :=
  ⟨by decide, by decide,
    (markdown_strip_only_without_sample "```csv\n**a**```" "C" "plain text please" "s"
      (by decide) (by decide)).1,
    (markdown_strip_only_without_sample "```csv\n**a**```" "C" "plain text please" "s"
      (by decide) (by decide)).2.1,
    (markdown_strip_only_without_sample "```csv\n**a**```" "C" "plain text please" "s"
      (by decide) (by decide)).2.2⟩

end ContentTool
